import Mathlib

/-!
Verification development for the clinical-guidance-monitor crawl-and-diff
pipeline.  The JavaScript sources (`scripts/poll-rss.js`, the ARTP HTML
poller, and the static data client) are shallowly embedded below: pure
string manipulation (`cleanHTML` and its chain of regex-replace passes) is
translated pass by pass, and the stateful crawl/store/diff logic is
translated as explicit state-passing functions over an explicit `Store`
record.  Network fetching and HTML content extraction are abstracted as an
oracle (`Ctx.env`): a deterministic function from URL to the fetch outcome,
which is faithful because the extraction functions in the source are pure
functions of the fetched bytes.  The SHA-256-prefix fingerprint
(`hashString`) is abstracted as a deterministic function `Ctx.hashString`;
no theorem below depends on anything about it beyond determinism, except
where a collision-freedom (injectivity) hypothesis is stated explicitly,
mirroring the spec's "collision risk is accepted as negligible ...
only assumed".
-/

namespace CGM

/-! ## Character-level string scanning (model of the JS regex replaces) -/

abbrev Chars := List Char

/-- Case-insensitive character equality, the model of a JS regex `i` flag:
JS lowercases both sides of a literal comparison. -/
def lcEq (a b : Char) : Bool := a.toLower == b.toLower

/-- If `pat` matches case-insensitively at the head of the input, return the
remainder after the match. -/
def stripCI : Chars → Chars → Option Chars
  | [], s => some s
  | _ :: _, [] => none
  | p :: ps, c :: cs => if lcEq c p then stripCI ps cs else none

/-- Find the first (leftmost) case-insensitive occurrence of `pat` and return
the remainder after it; models the lazy `[\s\S]*?pat` search. -/
def splitAfterCI (pat : Chars) : Chars → Option Chars
  | [] => none
  | c :: cs =>
    match stripCI pat (c :: cs) with
    | some r => some r
    | none => splitAfterCI pat cs

/-- JS regex `\w` class: `[A-Za-z0-9_]`. -/
def isWordChar (c : Char) : Bool := c.isAlphanum || c == '_'

/-- A `\b` word boundary placed after a word character: the next input
character must not be a word character (or the input must end). -/
def boundaryOk : Chars → Bool
  | [] => true
  | c :: _ => !(isWordChar c)

/-- One left-to-right pass of `String.prototype.replace` with a global
regex: at each position try the matcher `m`; on a match, emit the
replacement and resume after the consumed text (matches are non-overlapping
and the output is not rescanned); otherwise copy one character.  `fuel`
bounds the number of scan steps; every matcher used below consumes at least
one character, so `fuel = length` is always enough. -/
def scanRep (m : Chars → Option (Chars × Chars)) : Nat → Chars → Chars
  | _, [] => []
  | 0, s => s
  | fuel + 1, c :: cs =>
    match m (c :: cs) with
    | some (out, rest) => out ++ scanRep m fuel rest
    | none => c :: scanRep m fuel cs

def runRep (m : Chars → Option (Chars × Chars)) (s : Chars) : Chars :=
  scanRep m s.length s

/-- Matcher for `/<tag\b[\s\S]*?<\/tag>/gi` (the seven block-removal
passes): the literal `<tag` with a word boundary, then lazily anything up
to the first `</tag>`.  When no closing tag follows, the regex does not
match (and, the engine scanning onward, cannot match later either). -/
def mBlock (tag : Chars) (s : Chars) : Option (Chars × Chars) :=
  match stripCI ('<' :: tag) s with
  | none => none
  | some r =>
    if boundaryOk r then
      match splitAfterCI ('<' :: '/' :: (tag ++ ['>'])) r with
      | some r2 => some ([], r2)
      | none => none
    else none

/-- `h` followed by a literal digit `1`-`6`, the `h[1-6]` alternative. -/
def hDigitStrip : Chars → Option Chars
  | c :: d :: r => if lcEq c 'h' && (('1' ≤ d) && (d ≤ '6')) then some r else none
  | _ => none

/-- The name alternation of `/<\/(?:p|div|h[1-6]|li|tr|br|hr)[^>]*>/gi`,
tried in the regex's order. -/
def closeNameStrip (s : Chars) : Option Chars :=
  (stripCI ['p'] s).orElse fun _ =>
  (stripCI ['d', 'i', 'v'] s).orElse fun _ =>
  (hDigitStrip s).orElse fun _ =>
  (stripCI ['l', 'i'] s).orElse fun _ =>
  (stripCI ['t', 'r'] s).orElse fun _ =>
  (stripCI ['b', 'r'] s).orElse fun _ =>
  stripCI ['h', 'r'] s

/-- Drop up to and including the first `>`; the `[^>]*>` tail of a tag
pattern (greedy `[^>]*` always ends at the first `>`). -/
def afterGt : Chars → Option Chars
  | [] => none
  | c :: r => if c = '>' then some r else afterGt r

/-- Matcher for `/<\/(?:p|div|h[1-6]|li|tr|br|hr)[^>]*>/gi`, replaced by a
newline. -/
def mBlockClose (s : Chars) : Option (Chars × Chars) :=
  match s with
  | '<' :: '/' :: r =>
    match closeNameStrip r with
    | some r2 => (afterGt r2).map (fun r3 => (['\n'], r3))
    | none => none
  | _ => none

/-- JS regex `\s` class (ASCII whitespace, NBSP, line/paragraph separator,
BOM; the exotic Unicode space range is irrelevant to every claim). -/
def jsWsChar (c : Char) : Bool :=
  c = ' ' || c = '\t' || c = '\n' || c = '\r' ||
  c.toNat = 11 || c.toNat = 12 || c.toNat = 160 ||
  c.toNat = 8232 || c.toNat = 8233 || c.toNat = 65279

/-- Matcher for `/<(?:br|hr)\s*\/?>/gi`, replaced by a newline. -/
def mBrHr (s : Chars) : Option (Chars × Chars) :=
  match s with
  | '<' :: r =>
    match (stripCI ['b', 'r'] r).orElse (fun _ => stripCI ['h', 'r'] r) with
    | some r2 =>
      match r2.dropWhile jsWsChar with
      | '/' :: '>' :: r3 => some (['\n'], r3)
      | '>' :: r3 => some (['\n'], r3)
      | _ => none
    | none => none
  | _ => none

/-- Matcher for `/<[^>]+>/g`, replaced by a space. -/
def mAnyTag (s : Chars) : Option (Chars × Chars) :=
  match s with
  | '<' :: c :: r => if c = '>' then none else (afterGt (c :: r)).map (fun r2 => ([' '], r2))
  | _ => none

/-- Matcher for a fixed case-insensitive literal (the named-entity passes). -/
def mLit (pat rep : Chars) (s : Chars) : Option (Chars × Chars) :=
  (stripCI pat s).map (fun r => (rep, r))

/-- Matcher for `/&#\d+;/gi`, replaced by the empty string. -/
def mNumEnt (s : Chars) : Option (Chars × Chars) :=
  match s with
  | '&' :: '#' :: r =>
    match r.takeWhile Char.isDigit with
    | [] => none
    | _ :: _ =>
      match r.dropWhile Char.isDigit with
      | ';' :: r2 => some ([], r2)
      | _ => none
  | _ => none

def spTab (c : Char) : Bool := c = ' ' || c = '\t'

/-- Matcher for `/[ \t]+/g`, replaced by a single space. -/
def mSpTab (s : Chars) : Option (Chars × Chars) :=
  match s with
  | c :: r => if spTab c then some ([' '], r.dropWhile spTab) else none
  | [] => none

/-- Matcher for `/\n[ \t]+/g`, replaced by a newline. -/
def mNlSp (s : Chars) : Option (Chars × Chars) :=
  match s with
  | '\n' :: c :: r => if spTab c then some (['\n'], (c :: r).dropWhile spTab) else none
  | _ => none

/-- Matcher for `/\n{3,}/g`, replaced by two newlines. -/
def mNl3 (s : Chars) : Option (Chars × Chars) :=
  match s with
  | '\n' :: '\n' :: '\n' :: r => some (['\n', '\n'], r.dropWhile (· = '\n'))
  | _ => none

/-- `String.prototype.trim`. -/
def jsTrim (s : Chars) : Chars :=
  ((s.dropWhile jsWsChar).reverse.dropWhile jsWsChar).reverse

def scriptTag : Chars := ['s', 'c', 'r', 'i', 'p', 't']
def styleTag : Chars := ['s', 't', 'y', 'l', 'e']
def navTag : Chars := ['n', 'a', 'v']
def headerTag : Chars := ['h', 'e', 'a', 'd', 'e', 'r']
def footerTag : Chars := ['f', 'o', 'o', 't', 'e', 'r']
def asideTag : Chars := ['a', 's', 'i', 'd', 'e']
def noscriptTag : Chars := ['n', 'o', 's', 'c', 'r', 'i', 'p', 't']

/-- The seven removed-block tags, in the order of the source's passes. -/
def bannedTags : List Chars :=
  [scriptTag, styleTag, navTag, headerTag, footerTag, asideTag, noscriptTag]

def blockPass (tag : Chars) (s : Chars) : Chars := runRep (mBlock tag) s

/-- `cleanHTML` from both pollers (identical code in the two scripts),
translated pass for pass in the source's order. -/
def cleanHTML (s : Chars) : Chars :=
  let a1 := blockPass scriptTag s
  let a2 := blockPass styleTag a1
  let a3 := blockPass navTag a2
  let a4 := blockPass headerTag a3
  let a5 := blockPass footerTag a4
  let a6 := blockPass asideTag a5
  let a7 := blockPass noscriptTag a6
  let b1 := runRep mBlockClose a7
  let b2 := runRep mBrHr b1
  let b3 := runRep mAnyTag b2
  let c1 := runRep (mLit "&nbsp;".toList [' ']) b3
  let c2 := runRep (mLit "&amp;".toList ['&']) c1
  let c3 := runRep (mLit "&lt;".toList ['<']) c2
  let c4 := runRep (mLit "&gt;".toList ['>']) c3
  let c5 := runRep (mLit "&quot;".toList ['"']) c4
  let c6 := runRep (mLit "&#39;".toList ['\'']) c5
  let c7 := runRep (mLit "&rsquo;".toList ['\'']) c6
  let c8 := runRep (mLit "&lsquo;".toList ['\'']) c7
  let c9 := runRep (mLit "&rdquo;".toList ['"']) c8
  let c10 := runRep (mLit "&ldquo;".toList ['"']) c9
  let c11 := runRep (mLit "&mdash;".toList ['—']) c10
  let c12 := runRep (mLit "&ndash;".toList ['–']) c11
  let c13 := runRep mNumEnt c12
  let d1 := runRep mSpTab c13
  let d2 := runRep mNlSp d1
  let d3 := runRep mNl3 d2
  jsTrim d3

/-! ## Occurrence and block-membership machinery for the `cleanHTML` claim -/

/-- `t` occurs (exactly, case-sensitively) at position `j` of `s`. -/
def occAt (t s : Chars) (j : Nat) : Bool := t.isPrefixOf (s.drop j)

/-- All positions at which `t` occurs in `s`. -/
def occPositions (t s : Chars) : List Nat :=
  (List.range (s.length + 1)).filter (occAt t s)

/-- An opening `<tag` with a word boundary matches at position `o` of `s`. -/
def openAt (tag s : Chars) (o : Nat) : Bool :=
  match stripCI ('<' :: tag) (s.drop o) with
  | some r => boundaryOk r
  | none => false

/-- One past the end of the first `</tag>` whose start position is `≥ k`,
if any: the end of the block begun by an opening tag whose lazy body starts
at `k`. -/
def closeEndAfter (tag s : Chars) (k : Nat) : Option Nat :=
  (((List.range (s.length + 1)).filter
      (fun j => decide (k ≤ j) &&
        (stripCI ('<' :: '/' :: (tag ++ ['>'])) (s.drop j)).isSome)).head?).map
    (fun j => j + tag.length + 3)

/-- The span `[j, j+len)` of `s` lies inside some removed-tag block of the
input: a block runs from an opening `<tag` (with word boundary) to the end
of the first `</tag>` after it, the same extent the HTML parser and the
removal regexes assign to such an element. -/
def insideBlock (s : Chars) (j len : Nat) : Bool :=
  bannedTags.any fun tag =>
    (List.range (s.length + 1)).any fun o =>
      openAt tag s o &&
        match closeEndAfter tag s (o + tag.length + 1) with
        | some e => decide (o ≤ j) && decide (j + len ≤ e)
        | none => false

/-- `t` is a contiguous substring of `s`. -/
def isInfixB (t s : Chars) : Bool := (List.range (s.length + 1)).any (occAt t s)

/-- The claim, rendered: letters-only text whose every occurrence in the
input lies inside a script/style/nav/header/footer/aside/noscript block
never appears in the output of `cleanHTML`.  (Restricting the leaked text
to letters rules out the degenerate readings in which a character of the
output was legitimately produced by entity decoding or by the whitespace
replacements.) -/
def cleanHTMLNeverLeaks : Prop :=
  ∀ s t : Chars, t ≠ [] → t.all Char.isAlpha = true →
    occPositions t s ≠ [] →
    (∀ j ∈ occPositions t s, insideBlock s j t.length = true) →
    isInfixB t (cleanHTML s) = false

/-! ## JavaScript value helpers -/

/-- `a || b` on strings: the empty string is falsy. -/
def jsOrS (a b : String) : String := if a = "" then b else a

/-- An optional (possibly `undefined`/`null`) string read as a JS value. -/
def ofO (o : Option String) : String := o.getD ""

/-- `x || null`: `null`, `undefined` and `""` all collapse to `null`. -/
def jsOrNull (o : Option String) : Option String :=
  match o with
  | some s => if s = "" then none else some s
  | none => none

/-- `s.split('T')[0]`. -/
def beforeT (s : String) : String := String.mk (s.toList.takeWhile (· ≠ 'T'))

/-- `String.prototype.trim` at the `String` level. -/
def jsTrimS (s : String) : String := String.mk (jsTrim s.toList)

/-- `String.prototype.toLowerCase` (ASCII case mapping, the part relevant
to every keyword and query in the sources). -/
def jsToLower (s : String) : String := String.mk (s.toList.map Char.toLower)

/-- Number of maximal runs of `\s` whitespace in the string. -/
def wsRuns : Bool → Chars → Nat
  | _, [] => 0
  | prev, c :: cs =>
    if jsWsChar c then (if prev then wsRuns true cs else 1 + wsRuns true cs)
    else wsRuns false cs

/-- `str.split(/\s+/).length`: one more field than there are maximal
whitespace runs (JS keeps the empty leading/trailing fields, and
`"".split` yields `[""]`). -/
def splitWsLen (s : String) : Nat := wsRuns false s.toList + 1

/-- `hay.includes needle` (substring containment). -/
def containsS (hay needle : String) : Bool :=
  (List.range (hay.toList.length + 1)).any (occAt needle.toList hay.toList)

/-- Lexicographic comparison of strings by code point, the model of the
default (UTF-16 code-unit) comparator of `Array.prototype.sort`. -/
def strLeB : Chars → Chars → Bool
  | [], _ => true
  | _ :: _, [] => false
  | a :: as, b :: bs => if a < b then true else if b < a then false else strLeB as bs

def insertSorted (x : String) : List String → List String
  | [] => [x]
  | y :: ys => if strLeB x.toList y.toList then x :: y :: ys else y :: insertSorted x ys

/-- `urls.sort()` (stable, ascending by the default comparator). -/
def sortStr : List String → List String
  | [] => []
  | x :: xs => insertSorted x (sortStr xs)

/-- `arr.join('|')`. -/
def joinBar : List String → String
  | [] => ""
  | [x] => x
  | x :: y :: xs => x ++ "|" ++ joinBar (y :: xs)

/-! ## Data model (the five persisted documents of §3 / the JS records) -/

/-- The `metadata` sub-record of a stored article. -/
structure AMeta where
  wordCount : Nat
  estimatedReadTime : Nat
  description : String
  deriving DecidableEq

/-- A `StoredArticle`: an entry of `guidance.json`. -/
structure StoredArticle where
  id : String
  url : String
  title : String
  source : String
  type : String
  publishedDate : String
  fetchedDate : String
  contentHash : String
  content : String
  parentUrl : Option String
  metadata : AMeta
  deriving DecidableEq

/-- A `ChangeEvent`: an entry of `changes.json`. -/
structure ChangeEvent where
  id : String
  url : String
  title : String
  source : String
  changeType : String
  detectedAt : String
  previousHash : Option String
  newHash : String
  acknowledged : Bool
  deriving DecidableEq

/-- A `SeenEntry`: an entry of `seen.json`.  The RSS poller also records a
description excerpt and feed publish date; the NICE and ARTP pollers do
not (absent JS fields are `none`). -/
structure SeenEntry where
  url : String
  title : String
  description : Option String
  discovered : String
  publishedDate : Option String
  source : String
  deriving DecidableEq

/-- A `PageFingerprint`: an entry of `page-hashes.json`. -/
structure PageFP where
  url : String
  hash : String
  lastChecked : String
  lastChanged : String
  articlesFound : Nat
  newArticlesFound : Nat
  deriving DecidableEq

/-- The persisted state handled within one run: the four keyed documents
plus `config.json`'s `unreadChanges` counter (the only config field the
crawl pipeline mutates).  JS objects used as maps are modelled as
association lists with first-match lookup; `m[k] = v` is key-prepending. -/
structure Store where
  seen : List (String × SeenEntry)
  guidance : List (String × StoredArticle)
  changes : List (String × ChangeEvent)
  pageHashes : List (String × PageFP)
  unreadChanges : Nat
  deriving DecidableEq

/-- What fetching and extracting one URL yields: `extractContent` /
`extractARTPContent` output (normalized content plus, for NICE, chapter
links) together with the pure `extractTitle` / `parsePublishedDate`
results on the same document. -/
structure ChapterLink where
  url : String
  title : String
  deriving DecidableEq

structure FetchExtract where
  content : String
  chapterLinks : List ChapterLink
  extractedTitle : String
  parsedDate : Option String
  deriving DecidableEq

/-- The ambient deterministic context of a run: the fetch-and-extract
oracle (`none` = transport failure / non-2xx), the fingerprint function,
the run timestamp and derived key/date generators. -/
structure Ctx where
  env : String → Option FetchExtract
  hashString : String → String
  now : String
  changeKey : String → String
  dateISO : String → String

/-- The `metadata` hints threaded into `crawlAndStore` by its callers. -/
structure Hint where
  title : Option String
  description : Option String
  publishedDate : Option String
  deriving DecidableEq

/-! ## The crawl-and-store engine -/

/-- The `isNew` / `hasChanged` / no-op decision of both crawl engines:
`none` means the identical-fingerprint no-op; `some existing` means
proceed to store (with `existing = none` meaning a newly discovered
item). -/
def upsertDecision (looked : Option StoredArticle) (newHash : String) :
    Option (Option StoredArticle) :=
  match looked with
  | none => some none
  | some ex => if ex.contentHash = newHash then none else some (some ex)

/-- The `StoredArticle` record built by `crawlAndStore` (and, with the
corresponding arguments, by `crawlAndStoreARTP`). -/
def mkArticle (ctx : Ctx) (url source type title : String) (md : Hint)
    (parentUrl : Option String) (fx : FetchExtract) : StoredArticle :=
  let content := fx.content
  let wc := splitWsLen content
  { id := "content:" ++ ctx.hashString url
    url := url
    title := title
    source := source
    type := jsOrS type "article"
    publishedDate :=
      jsOrS (jsOrS (ofO md.publishedDate) (ofO fx.parsedDate)) (beforeT ctx.now)
    fetchedDate := ctx.now
    contentHash := ctx.hashString content
    content := content
    parentUrl := jsOrNull parentUrl
    metadata :=
      { wordCount := wc
        estimatedReadTime := (wc + 249) / 250
        description := jsOrS (ofO md.description) (content.take 200) } }

/-- The `ChangeEvent` record built by both crawl engines, with its key. -/
def mkEvent (ctx : Ctx) (url source title : String) (existing : Option StoredArticle)
    (fx : FetchExtract) : String × ChangeEvent :=
  let k := ctx.changeKey (ctx.hashString url)
  (k,
    { id := k
      url := url
      title := title
      source := source
      changeType := if existing.isNone then "new_guidance" else "content_update"
      detectedAt := ctx.now
      previousHash := jsOrNull (existing.map (·.contentHash))
      newHash := ctx.hashString fx.content
      acknowledged := false })

/-- The upsert step shared by the new/changed branches: overwrite the
article in place, append the change event, bump the unread counter. -/
def storeStep (ctx : Ctx) (url source type title : String) (md : Hint)
    (parentUrl : Option String) (fx : FetchExtract)
    (existing : Option StoredArticle) (st : Store) : Store :=
  { st with
    guidance :=
      ("content:" ++ ctx.hashString url,
        mkArticle ctx url source type title md parentUrl fx) :: st.guidance
    changes := mkEvent ctx url source title existing fx :: st.changes
    unreadChanges := st.unreadChanges + 1 }

/-- `crawlAndStore` from `poll-rss.js`.  `fuel` is `maxDepth - crawlDepth`
(so the source's recursion guard `crawlDepth < maxDepth` is `fuel > 0`);
callers pass `maxDepth - 0`.  The body follows the source line by line:
fetch (oracle), content-length gate, fingerprint comparison, upsert,
then — for NICE only, below the depth bound, when chapter links were
found — the sequential recursive chapter crawl. -/
def crawlAndStore (ctx : Ctx) : Nat → String → String → String → Hint →
    Option String → Store → Store
  | fuel, url, source, type, md, parentUrl, st =>
    match ctx.env url with
    | none => st
    | some fx =>
      let content := fx.content
      let title := jsOrS (ofO md.title) fx.extractedTitle
      if content = "" ∨ content.length < 50 then st
      else
        let key := "content:" ++ ctx.hashString url
        match upsertDecision (List.lookup key st.guidance) (ctx.hashString content) with
        | none => st
        | some existing =>
          let st1 := storeStep ctx url source type title md parentUrl fx existing st
          if source = "nice" then
            match fuel with
            | 0 => st1
            | f + 1 =>
              if fx.chapterLinks.isEmpty then st1
              else
                fx.chapterLinks.foldl
                  (fun s ch =>
                    crawlAndStore ctx f ch.url "nice" "chapter"
                      ⟨some (title ++ " — " ++ ch.title), none, none⟩ (some url) s)
                  st1
          else st1

/-- `crawlAndStoreARTP` from the ARTP poller: the same reconcile logic
with source fixed to `"artp"`, no hint record (a plain title and date
argument), no chapter recursion, and the `seen` map passed through
untouched. -/
def crawlAndStoreARTP (ctx : Ctx) (url title : String) (date : Option String)
    (st : Store) : Store :=
  match ctx.env url with
  | none => st
  | some fx =>
    let content := fx.content
    let rtitle := jsOrS title fx.extractedTitle
    if content = "" ∨ content.length < 50 then st
    else
      let key := "content:" ++ ctx.hashString url
      match upsertDecision (List.lookup key st.guidance) (ctx.hashString content) with
      | none => st
      | some existing =>
        storeStep ctx url "artp" "article" rtitle ⟨none, none, date⟩ none fx existing st

/-! ## The per-item source pipelines -/

/-- A feed item after the `<item>` regex extraction of `fetchRSSSource`
(title/link/description already tag-stripped and trimmed). -/
structure RSSItem where
  title : String
  link : String
  description : String
  pubDate : Option String
  deriving DecidableEq

/-- The body of `fetchRSSSource`'s per-item loop: missing title/link guard,
exclude then include keyword filtering on lowercased title+description,
seen-marker check and creation, then either the RSS-only direct store or a
`crawlAndStore` call (depth 0, max depth 0). -/
def processRSSItem (ctx : Ctx) (source : String) (inc exc : List String)
    (rssOnly : Bool) (it : RSSItem) (st : Store) : Store :=
  if it.title = "" ∨ it.link = "" then st
  else
    let textToCheck := jsToLower (it.title ++ " " ++ it.description)
    if exc.any (fun kw => containsS textToCheck (jsToLower kw)) then st
    else if !inc.isEmpty && !(inc.any (fun kw => containsS textToCheck (jsToLower kw))) then st
    else
      let h := ctx.hashString it.link
      let seenKey := source ++ ":" ++ h
      if (List.lookup seenKey st.seen).isSome then st
      else
        let st1 :=
          { st with
            seen :=
              (seenKey,
                { url := it.link
                  title := it.title
                  description := some (it.description.take 500)
                  discovered := ctx.now
                  publishedDate := it.pubDate
                  source := source }) :: st.seen }
        if rssOnly then
          let storageKey := "content:" ++ h
          let content := jsOrS it.description it.title
          let contentHash := ctx.hashString content
          match upsertDecision (List.lookup storageKey st1.guidance) contentHash with
          | none => st1
          | some existing =>
            let wc := splitWsLen content
            let article : StoredArticle :=
              { id := storageKey
                url := it.link
                title := it.title
                source := source
                type := "article"
                publishedDate :=
                  match it.pubDate with
                  | some p => if p = "" then beforeT ctx.now else beforeT (ctx.dateISO p)
                  | none => beforeT ctx.now
                fetchedDate := ctx.now
                contentHash := contentHash
                content := content
                parentUrl := none
                metadata :=
                  { wordCount := wc
                    estimatedReadTime := max 1 ((wc + 249) / 250)
                    description := content.take 200 } }
            let ck := ctx.changeKey h
            let ev : ChangeEvent :=
              { id := ck
                url := it.link
                title := it.title
                source := source
                changeType := if existing.isNone then "new_guidance" else "content_update"
                detectedAt := ctx.now
                previousHash := jsOrNull (existing.map (·.contentHash))
                newHash := contentHash
                acknowledged := false }
            { st1 with
              guidance := (storageKey, article) :: st1.guidance
              changes := (ck, ev) :: st1.changes
              unreadChanges := st1.unreadChanges + 1 }
        else
          crawlAndStore ctx 0 it.link source "article"
            ⟨some it.title, some (it.description.take 500), it.pubDate⟩ none st1

/-- The body of `fetchNICEGuidance`'s per-link loop for one discovered
guidance link: non-empty-title guard, include-keyword filter on the
lowercased title (NICE has no exclude list), seen-marker check and
creation, then `crawlAndStore` with max depth 1. -/
def processNICEItem (ctx : Ctx) (kws : List String) (url title : String)
    (st : Store) : Store :=
  if title = "" then st
  else if !kws.isEmpty && !(kws.any (fun kw => containsS (jsToLower title) (jsToLower kw))) then st
  else
    let seenKey := "nice:" ++ ctx.hashString url
    if (List.lookup seenKey st.seen).isSome then st
    else
      crawlAndStore ctx 1 url "nice" "guidance" ⟨some title, none, none⟩ none
        { st with
          seen :=
            (seenKey,
              { url := url
                title := title
                description := none
                discovered := ctx.now
                publishedDate := none
                source := "nice" }) :: st.seen }

/-- A link discovered on the ARTP news listing page. -/
structure ARTPLink where
  url : String
  title : String
  date : Option String
  deriving DecidableEq

/-- One iteration of `checkARTPNews`'s per-article loop (threading the
`newCount` accumulator): seen-marker check first, then the exclude-keyword
filter on the lowercased title (ARTP has no include list), then the seen
marker is created and the article crawled. -/
def processARTPItem (ctx : Ctx) (exc : List String) (acc : Store × Nat)
    (a : ARTPLink) : Store × Nat :=
  let st := acc.1
  let seenKey := "artp:" ++ ctx.hashString a.url
  if (List.lookup seenKey st.seen).isSome then acc
  else if exc.any (fun kw => containsS (jsToLower a.title) (jsToLower kw)) then acc
  else
    let st1 :=
      { st with
        seen :=
          (seenKey,
            { url := a.url
              title := a.title
              description := none
              discovered := ctx.now
              publishedDate := none
              source := "artp" }) :: st.seen }
    (crawlAndStoreARTP ctx a.url a.title a.date st1, acc.2 + 1)

/-- The fingerprinted sorted-URL-set string of `checkARTPNews`:
`articleLinks.map(a => a.url).sort().join('|')`. -/
def artpFingerprint (links : List ARTPLink) : String :=
  joinBar (sortStr (links.map (·.url)))

/-- The full (non-short-circuited) path of `checkARTPNews`: evaluate every
link, then overwrite the `artp-news` page-fingerprint record. -/
def artpFullPath (ctx : Ctx) (links : List ARTPLink) (exc : List String)
    (stored : Option PageFP) (currentHash : String) (st : Store) : Store :=
  let r := links.foldl (processARTPItem ctx exc) (st, 0)
  { r.1 with
    pageHashes :=
      ("artp-news",
        { url := "https://www.artp.org.uk/news"
          hash := currentHash
          lastChecked := ctx.now
          lastChanged :=
            if 0 < r.2 then ctx.now else jsOrS (ofO (stored.map (·.lastChanged))) ctx.now
          articlesFound := links.length
          newArticlesFound := r.2 }) :: r.1.pageHashes }

/-- `checkARTPNews`: fetch the listing (here: the already-extracted link
list, `none` = fetch failure), fingerprint the sorted URL set, and either
short-circuit (previous fingerprint present, truthy and equal: only
`lastChecked` is rewritten) or evaluate every link and rewrite the page
record. -/
def checkARTPNews (ctx : Ctx) (fetched : Option (List ARTPLink))
    (exc : List String) (st : Store) : Store :=
  match fetched with
  | none => st
  | some links =>
    let currentHash := ctx.hashString (artpFingerprint links)
    match List.lookup "artp-news" st.pageHashes with
    | some pf =>
      if pf.hash ≠ "" ∧ currentHash = pf.hash then
        { st with pageHashes := ("artp-news", { pf with lastChecked := ctx.now }) :: st.pageHashes }
      else artpFullPath ctx links exc (some pf) currentHash st
    | none => artpFullPath ctx links exc none currentHash st

/-! ## The data client's search operation -/

/-- One hit of `Api.search`. -/
structure SearchHit where
  id : String
  url : String
  title : String
  source : String
  publishedDate : String
  fetchedDate : String
  excerpt : String
  wordCount : Nat
  matchType : String
  deriving DecidableEq

structure SearchOut where
  items : List SearchHit
  total : Nat
  query : String
  deriving DecidableEq

/-- First index of `needle` in `hay` (`indexOf`, defined when present). -/
def firstIdx (hay needle : String) : Nat :=
  (((List.range (hay.toList.length + 1)).filter (occAt needle.toList hay.toList)).head?).getD 0

/-- `s.substring(a, b)` for `a ≤ b`. -/
def strSub (s : String) (a b : Nat) : String :=
  String.mk ((s.toList.drop a).take (b - a))

/-- The excerpt construction of `Api.search` for a content match. -/
def searchExcerpt (content q : String) : String :=
  let lower := jsToLower content
  let idx := firstIdx lower q
  let start := idx - 100
  let stop := min content.length (idx + q.length + 100)
  (if 0 < start then "..." else "") ++ strSub content start stop ++
    (if stop < content.length then "..." else "")

/-- One candidate hit of `Api.search`'s loop body, `none` when filtered. -/
def searchHit? (source q : String) (item : StoredArticle) : Option SearchHit :=
  if source ≠ "all" ∧ item.source ≠ source then none
  else
    let titleMatch := containsS (jsToLower item.title) q
    let contentMatch := containsS (jsToLower item.content) q
    if !titleMatch && !contentMatch then none
    else
      some
        { id := item.id
          url := item.url
          title := item.title
          source := item.source
          publishedDate := item.publishedDate
          fetchedDate := item.fetchedDate
          excerpt :=
            if contentMatch && item.content ≠ "" then searchExcerpt item.content q
            else item.metadata.description
          wordCount := item.metadata.wordCount
          matchType := if titleMatch then "title" else "content" }

/-- The comparator-derived "may come first" relation of `Api.search`'s
sort: title matches first, then newest first by `new Date(publishedDate ||
fetchedDate)` (date parsing abstracted as the numeric key `dateNum`). -/
def hitLe (dateNum : String → Int) (a b : SearchHit) : Bool :=
  if a.matchType = b.matchType then
    dateNum (jsOrS b.publishedDate b.fetchedDate) ≤ dateNum (jsOrS a.publishedDate a.fetchedDate)
  else a.matchType = "title"

def insertHit (dateNum : String → Int) (x : SearchHit) : List SearchHit → List SearchHit
  | [] => [x]
  | y :: ys => if hitLe dateNum x y then x :: y :: ys else y :: insertHit dateNum x ys

/-- The stable sort of the results array. -/
def sortHits (dateNum : String → Int) : List SearchHit → List SearchHit
  | [] => []
  | x :: xs => insertHit dateNum x (sortHits dateNum xs)

/-- `Api.search` over the loaded `guidance.json` values: lowercase-trim
gate, filter and hit construction, sort, then `slice(0, 50)` with the full
match count as `total` and the original query echoed back. -/
def searchApi (dateNum : String → Int) (query source : String)
    (gs : List StoredArticle) : SearchOut :=
  let q := jsTrimS (jsToLower query)
  if q = "" ∨ q.length < 2 then { items := [], total := 0, query := "" }
  else
    let results := gs.filterMap (searchHit? source q)
    { items := (sortHits dateNum results).take 50
      total := results.length
      query := query }

/-! ## Predicates used by the theorems -/

/-- Every article the crawl engines write satisfies this: it was written
for the URL recorded in it, under the derived storage key, carrying the
fingerprint of the very content the oracle returned for that URL. -/
def EnvGood (ctx : Ctx) (k : String) (a : StoredArticle) : Prop :=
  ∃ u fx, ctx.env u = some fx ∧ k = "content:" ++ ctx.hashString u ∧ a.url = u ∧
    a.content = fx.content ∧ a.contentHash = ctx.hashString fx.content ∧ a.id = k ∧
    1 ≤ a.metadata.estimatedReadTime

/-- The stored-article shape invariant of the claim: key/id/fingerprint
coherence and a positive reading time. -/
def GoodEntry (ctx : Ctx) (k : String) (a : StoredArticle) : Prop :=
  a.id = k ∧ k = "content:" ++ ctx.hashString a.url ∧
  a.contentHash = ctx.hashString a.content ∧ 1 ≤ a.metadata.estimatedReadTime

/-- What one crawl-engine invocation may do to the store: `seen` and
`pageHashes` are untouched, every guidance entry is either preserved or an
oracle-consistent write, no guidance entry is deleted, and the change log
only grows. -/
def CrawlRel (ctx : Ctx) (st st' : Store) : Prop :=
  st'.seen = st.seen ∧ st'.pageHashes = st.pageHashes ∧
  (∀ k a, List.lookup k st'.guidance = some a →
    List.lookup k st.guidance = some a ∨ EnvGood ctx k a) ∧
  (∀ k, List.lookup k st'.guidance = none → List.lookup k st.guidance = none) ∧
  (∃ pre, st'.changes = pre ++ st.changes)

/-- The pattern `p` hits a case-insensitive mismatch strictly within `x`
(before either list runs out), so no extension of `x` can match `p`. -/
def mismatchWithin (p x : Chars) : Bool :=
  match p, x with
  | _, [] => false
  | [], _ => false
  | pc :: ps, c :: cs => !(lcEq c pc) || (lcEq c pc && mismatchWithin ps cs)

/-! ## Concrete fixtures for the witnesses -/

/-- Sixty characters of content, comfortably past the length gate. -/
def c60 : String :=
  "abcdefghij" ++ "abcdefghij" ++ "abcdefghij" ++ "abcdefghij" ++
    "abcdefghij" ++ "abcdefghij"

def fxW : FetchExtract :=
  { content := c60, chapterLinks := [], extractedTitle := "T", parsedDate := none }

def fxW2 : FetchExtract :=
  { content := c60 ++ "z", chapterLinks := [], extractedTitle := "T2", parsedDate := none }

/-- A concrete context: the identity fingerprint (injective), a fixed
clock, and an oracle knowing two URLs. -/
def ctxW : Ctx :=
  { env := fun u => if u = "u1" then some fxW else if u = "u2" then some fxW2 else none
    hashString := fun s => s
    now := "2026-01-01T00:00:00Z"
    changeKey := fun h => "change:0:" ++ h
    dateISO := fun _ => "2026-01-01T00:00:00Z" }

/-- A context whose every fetch fails. -/
def ctxFail : Ctx :=
  { env := fun _ => none
    hashString := fun s => s
    now := "2026-01-01T00:00:00Z"
    changeKey := fun h => "change:0:" ++ h
    dateISO := fun _ => "2026-01-01T00:00:00Z" }

def st0 : Store := ⟨[], [], [], [], 0⟩

def hint0 : Hint := ⟨some "T", none, none⟩

/-- A store already holding the article the oracle serves for `u1`. -/
def stSeeded : Store :=
  crawlAndStore ctxW 0 "u1" "nhs" "article" hint0 none st0

/-- A short RSS item for the RSS-only path. -/
def itShort : RSSItem :=
  { title := "Alert", link := "L1", description := "short", pubDate := none }

def itW : RSSItem :=
  { title := "New pathway", link := "u1", description := "update on a pathway", pubDate := none }

def artpPf : PageFP :=
  ⟨"https://www.artp.org.uk/news", artpFingerprint [⟨"a1", "T", none⟩], "t0", "t0", 1, 0⟩

def stArtp : Store := ⟨[], [], [], [("artp-news", artpPf)], 0⟩

def seenW : SeenEntry := ⟨"u1", "T", none, "t0", none, "nhs"⟩

/-- A context whose every fetch succeeds with 5 characters of content. -/
def ctxShort : Ctx :=
  { env := fun _ => some ⟨"short", [], "T", none⟩
    hashString := fun s => s
    now := "2026-01-01T00:00:00Z"
    changeKey := fun h => "change:0:" ++ h
    dateISO := fun _ => "2026-01-01T00:00:00Z" }

/-- A store already holding a seen marker for `u1` under the nhs source. -/
def stSeen : Store := ⟨[("nhs:u1", seenW)], [], [], [], 0⟩

/-- The article the rssOnly path stores for `itShort` under `ctxW`. -/
def artShort : StoredArticle :=
  { id := "content:L1", url := "L1", title := "Alert", source := "ncl",
    type := "article", publishedDate := "2026-01-01",
    fetchedDate := "2026-01-01T00:00:00Z", contentHash := "short", content := "short",
    parentUrl := none,
    metadata := { wordCount := 1, estimatedReadTime := 1, description := "short" } }

/-- A later-run context in which `u1` serves changed content, and the
article the first run stored for `u1`. -/
def ctxW2 : Ctx :=
  { env := fun u => if u = "u1" then some fxW2 else none
    hashString := fun s => s
    now := "2026-02-01T00:00:00Z"
    changeKey := fun h => "change:1:" ++ h
    dateISO := fun _ => "2026-02-01T00:00:00Z" }

def artSeeded : StoredArticle := mkArticle ctxW "u1" "nhs" "article" "T" hint0 none fxW

/-! # Theorems -/

/-! ## Character-level groundwork -/

lemma toNat_ofNat_valid (n : Nat) (h : n.isValidChar) : (Char.ofNat n).toNat = n := by
  unfold Char.ofNat
  rw [dif_pos h]
  rfl

/-- Case-insensitive comparison against a non-letter is plain equality:
`toLower` moves only uppercase letters, and moves them into `[97, 122]`. -/
lemma lcEq_symbol (c d : Char) (hd : d.toLower = d)
    (hd2 : ¬ (97 ≤ d.toNat ∧ d.toNat ≤ 122)) : lcEq c d = (c == d) := by
  by_cases hc : c = d
  · subst hc
    unfold lcEq
    rw [hd]
  · have h1 : (c == d) = false := beq_eq_false_iff_ne.mpr hc
    rw [h1]
    unfold lcEq
    rw [hd]
    apply beq_eq_false_iff_ne.mpr
    intro htl
    apply hc
    unfold Char.toLower at htl
    simp only [ge_iff_le] at htl
    by_cases hrange : 65 ≤ c.toNat ∧ c.toNat ≤ 90
    · exfalso
      rw [if_pos hrange] at htl
      have hv : Nat.isValidChar (c.toNat + 32) := by
        left
        omega
      have h2 := toNat_ofNat_valid (c.toNat + 32) hv
      rw [htl] at h2
      apply hd2
      omega
    · rwa [if_neg hrange] at htl

lemma lcEq_lt_false {c : Char} (h : c ≠ '<') : lcEq c '<' = false := by
  rw [lcEq_symbol c '<' (by decide) (by decide)]
  exact beq_eq_false_iff_ne.mpr h

lemma lcEq_refl (c : Char) : lcEq c c = true := by
  unfold lcEq
  exact beq_self_eq_true _

lemma stripCI_cons_false {p c : Char} {ps cs : Chars} (h : lcEq c p = false) :
    stripCI (p :: ps) (c :: cs) = none := by
  simp [stripCI, h]

lemma stripCI_cons_true {p c : Char} {ps cs : Chars} (h : lcEq c p = true) :
    stripCI (p :: ps) (c :: cs) = stripCI ps cs := by
  simp [stripCI, h]

/-- A pattern matches right at the start of itself followed by anything. -/
lemma stripCI_self (p r : Chars) : stripCI p (p ++ r) = some r := by
  induction p with
  | nil => rfl
  | cons c cs ih =>
    rw [List.cons_append, stripCI_cons_true (lcEq_refl c)]
    exact ih

/-- A pattern opening with `<` cannot match at a non-`<` character. -/
lemma stripCI_lt_head {c : Char} (hc : c ≠ '<') (ps cs : Chars) :
    stripCI ('<' :: ps) (c :: cs) = none :=
  stripCI_cons_false (lcEq_lt_false hc)

lemma stripCI_none_of_mismatch {p x : Chars} (h : mismatchWithin p x = true) (z : Chars) :
    stripCI p (x ++ z) = none := by
  induction p generalizing x with
  | nil => cases x <;> simp [mismatchWithin] at h
  | cons pc ps ih =>
    cases x with
    | nil => simp [mismatchWithin] at h
    | cons c cs =>
      simp only [mismatchWithin, Bool.or_eq_true, Bool.not_eq_true',
        Bool.and_eq_true] at h
      rcases h with h | ⟨h1, h2⟩
      · rw [List.cons_append, stripCI_cons_false h]
      · rw [List.cons_append, stripCI_cons_true h1]
        exact ih h2

/-! ## Store-level groundwork: what a crawl invocation may do -/

lemma crawlRel_refl (ctx : Ctx) (st : Store) : CrawlRel ctx st st :=
  ⟨rfl, rfl, fun _ _ h => Or.inl h, fun _ h => h, [], rfl⟩

lemma crawlRel_trans (ctx : Ctx) (a b c : Store) (h1 : CrawlRel ctx a b)
    (h2 : CrawlRel ctx b c) : CrawlRel ctx a c := by
  obtain ⟨s1, p1, g1, n1, pre1, c1⟩ := h1
  obtain ⟨s2, p2, g2, n2, pre2, c2⟩ := h2
  refine ⟨s2.trans s1, p2.trans p1, ?_, fun k h => n1 k (n2 k h), pre2 ++ pre1, ?_⟩
  · intro k x h
    rcases g2 k x h with h' | h'
    · exact g1 k x h'
    · exact Or.inr h'
  · rw [c2, c1, List.append_assoc]

lemma foldl_rel {α β : Type} (f : α → β → α) (P : α → α → Prop)
    (hrefl : ∀ s, P s s) (htrans : ∀ a b c, P a b → P b c → P a c)
    (hstep : ∀ s x, P s (f s x)) : ∀ (l : List β) (st : α), P st (l.foldl f st) := by
  intro l
  induction l with
  | nil => exact fun st => hrefl st
  | cons x xs ih => exact fun st => htrans _ _ _ (hstep st x) (ih (f st x))

lemma ert_ge_one (s : String) : 1 ≤ (splitWsLen s + 249) / 250 := by
  have h : 1 ≤ splitWsLen s := Nat.le_add_left 1 _
  omega

lemma storeStep_rel (ctx : Ctx) (url source type title : String) (md : Hint)
    (p : Option String) (fx : FetchExtract) (existing : Option StoredArticle)
    (st : Store) (henv : ctx.env url = some fx) :
    CrawlRel ctx st (storeStep ctx url source type title md p fx existing st) := by
  refine ⟨rfl, rfl, ?_, ?_, [mkEvent ctx url source title existing fx], rfl⟩
  · intro k a h
    simp only [storeStep, List.lookup] at h
    by_cases hk : (k == "content:" ++ ctx.hashString url) = true
    · rw [hk] at h
      right
      have hkey : k = "content:" ++ ctx.hashString url := eq_of_beq hk
      refine ⟨url, fx, henv, hkey, ?_, ?_, ?_, ?_, ?_⟩ <;>
        simp [← Option.some_inj.mp h, mkArticle, hkey, ert_ge_one]
    · rw [Bool.not_eq_true] at hk
      rw [hk] at h
      exact Or.inl h
  · intro k h
    simp only [storeStep, List.lookup] at h
    by_cases hk : (k == "content:" ++ ctx.hashString url) = true
    · rw [hk] at h
      exact absurd h (by simp)
    · rw [Bool.not_eq_true] at hk
      rw [hk] at h
      exact h

lemma crawlAndStore_rel (ctx : Ctx) :
    ∀ (fuel : Nat) (u s t : String) (md : Hint) (p : Option String) (st : Store),
      CrawlRel ctx st (crawlAndStore ctx fuel u s t md p st) := by
  intro fuel
  induction fuel with
  | zero =>
    intro u s t md p st
    rw [crawlAndStore]
    cases henv : ctx.env u with
    | none => exact crawlRel_refl ctx st
    | some fx =>
      by_cases hg : fx.content = "" ∨ fx.content.length < 50
      · simp only [if_pos hg]
        exact crawlRel_refl ctx st
      · simp only [if_neg hg]
        cases hd : upsertDecision (List.lookup ("content:" ++ ctx.hashString u) st.guidance)
            (ctx.hashString fx.content) with
        | none => exact crawlRel_refl ctx st
        | some existing =>
          have hstep := storeStep_rel ctx u s t (jsOrS (ofO md.title) fx.extractedTitle)
            md p fx existing st henv
          by_cases hn : s = "nice"
          · simp only [if_pos hn]
            exact hstep
          · simp only [if_neg hn]
            exact hstep
  | succ f ih =>
    intro u s t md p st
    rw [crawlAndStore]
    cases henv : ctx.env u with
    | none => exact crawlRel_refl ctx st
    | some fx =>
      by_cases hg : fx.content = "" ∨ fx.content.length < 50
      · simp only [if_pos hg]
        exact crawlRel_refl ctx st
      · simp only [if_neg hg]
        cases hd : upsertDecision (List.lookup ("content:" ++ ctx.hashString u) st.guidance)
            (ctx.hashString fx.content) with
        | none => exact crawlRel_refl ctx st
        | some existing =>
          have hstep := storeStep_rel ctx u s t (jsOrS (ofO md.title) fx.extractedTitle)
            md p fx existing st henv
          by_cases hn : s = "nice"
          · simp only [if_pos hn]
            by_cases hch : fx.chapterLinks.isEmpty
            · simp only [if_pos hch]
              exact hstep
            · simp only [if_neg hch]
              refine crawlRel_trans ctx _ _ _ hstep ?_
              exact foldl_rel _ (CrawlRel ctx) (crawlRel_refl ctx) (crawlRel_trans ctx)
                (fun st' ch => ih ch.url "nice" "chapter" _ _ st') fx.chapterLinks _
          · simp only [if_neg hn]
            exact hstep

/-! ## Claims C3, C4, C5, C6 -/


/-- Claim C6: if the page fetch fails (network error or non-2xx response,
i.e. the oracle returns `none`), both crawl engines return with every
persisted store — seen, guidance, changes, page-hash maps and the config's
unread-change counter — exactly as before, and (being total functions on
`Store`) the failure does not propagate. -/
theorem claim_C6 :
    (∀ (ctx : Ctx) (fuel : Nat) (u s t : String) (md : Hint) (p : Option String) (st : Store),
      ctx.env u = none → crawlAndStore ctx fuel u s t md p st = st) ∧
    (∀ (ctx : Ctx) (url title : String) (date : Option String) (st : Store),
      ctx.env url = none → crawlAndStoreARTP ctx url title date st = st) := by
  constructor
  · intro ctx fuel u s t md p st h
    rw [crawlAndStore, h]
  · intro ctx url title date st h
    rw [crawlAndStoreARTP, h]

theorem claim_C6_witness :
    crawlAndStore ctxFail 0 "u1" "nhs" "article" hint0 none st0 = st0 ∧
    crawlAndStoreARTP ctxFail "u1" "T" none st0 = st0 :=
  ⟨claim_C6.1 ctxFail 0 "u1" "nhs" "article" hint0 none st0 rfl,
   claim_C6.2 ctxFail "u1" "T" none st0 rfl⟩

/-- Claim C5: when a previous ARTP page fingerprint exists (and is truthy)
and the fingerprint of the sorted, de-duplicated URL set equals it, the
per-link loop of `checkARTPNews` does not run: the whole resulting store is
the old one except that the cached record's `lastChecked` field is
rewritten to the current time; seen, guidance, changes, unread counter and
all other page-hash entries are untouched. -/
theorem claim_C5 (ctx : Ctx) (links : List ARTPLink) (exc : List String) (st : Store)
    (pf : PageFP) (hpf : List.lookup "artp-news" st.pageHashes = some pf)
    (hne : pf.hash ≠ "") (heq : ctx.hashString (artpFingerprint links) = pf.hash) :
    checkARTPNews ctx (some links) exc st =
      { st with
        pageHashes := ("artp-news", { pf with lastChecked := ctx.now }) :: st.pageHashes } := by
  rw [checkARTPNews]
  simp only [hpf]
  rw [if_pos ⟨hne, heq⟩]

theorem claim_C5_witness :
    checkARTPNews ctxW (some [⟨"a1", "T", none⟩]) [] stArtp =
      { stArtp with
        pageHashes := ("artp-news", { artpPf with lastChecked := ctxW.now }) :: stArtp.pageHashes } :=
  claim_C5 ctxW [⟨"a1", "T", none⟩] [] stArtp artpPf rfl (by decide) rfl

/-- Claim C4: relevance filtering.  For the RSS pipeline: an item whose
lowercased title+description contains any exclude keyword is never stored
(the store is returned unchanged) regardless of the include list, and an
item matching no include keyword of a non-empty include list is never
stored.  For the NICE pipeline (which has only an include list, matched
against the lowercased title): a link matching no keyword of a non-empty
keyword list is never stored.  For the ARTP pipeline (which has only an
exclude list, matched against the lowercased title): an excluded article
is never stored. -/
theorem claim_C4 :
    (∀ (ctx : Ctx) (source : String) (inc exc : List String) (ro : Bool) (it : RSSItem)
        (st : Store),
      exc.any (fun kw => containsS (jsToLower (it.title ++ " " ++ it.description)) (jsToLower kw))
          = true →
      processRSSItem ctx source inc exc ro it st = st) ∧
    (∀ (ctx : Ctx) (source : String) (inc exc : List String) (ro : Bool) (it : RSSItem)
        (st : Store),
      inc ≠ [] →
      inc.any (fun kw => containsS (jsToLower (it.title ++ " " ++ it.description)) (jsToLower kw))
          = false →
      processRSSItem ctx source inc exc ro it st = st) ∧
    (∀ (ctx : Ctx) (kws : List String) (url title : String) (st : Store),
      kws ≠ [] → kws.any (fun kw => containsS (jsToLower title) (jsToLower kw)) = false →
      processNICEItem ctx kws url title st = st) ∧
    (∀ (ctx : Ctx) (exc : List String) (acc : Store × Nat) (a : ARTPLink),
      exc.any (fun kw => containsS (jsToLower a.title) (jsToLower kw)) = true →
      processARTPItem ctx exc acc a = acc) := by
  refine ⟨?_, ?_, ?_, ?_⟩
  · intro ctx source inc exc ro it st h
    rw [processRSSItem]
    by_cases hg : it.title = "" ∨ it.link = ""
    · rw [if_pos hg]
    · rw [if_neg hg]
      simp only [h, if_true]
  · intro ctx source inc exc ro it st hinc h
    rw [processRSSItem]
    by_cases hg : it.title = "" ∨ it.link = ""
    · rw [if_pos hg]
    · rw [if_neg hg]
      cases hx : exc.any
          (fun kw => containsS (jsToLower (it.title ++ " " ++ it.description)) (jsToLower kw)) with
      | true => simp only [hx, if_true]
      | false =>
        simp only [hx, Bool.false_eq_true, if_false, h]
        have hie : inc.isEmpty = false := by
          cases inc with
          | nil => exact absurd rfl hinc
          | cons a l => rfl
        simp [hie]
  · intro ctx kws url title st hk h
    rw [processNICEItem]
    by_cases hg : title = ""
    · rw [if_pos hg]
    · rw [if_neg hg]
      have hie : kws.isEmpty = false := by
        cases kws with
        | nil => exact absurd rfl hk
        | cons a l => rfl
      simp [hie, h]
  · intro ctx exc acc a h
    rw [processARTPItem]
    cases hs : (List.lookup ("artp:" ++ ctx.hashString a.url) acc.1.seen).isSome with
    | true => simp only [hs, if_true]
    | false => simp only [hs, Bool.false_eq_true, if_false, h, if_true]



set_option maxRecDepth 4000 in
theorem claim_C4_witness :
    processRSSItem ctxW "ncl" [] ["pathway"] false itW st0 = st0 ∧
    processRSSItem ctxW "ncl" ["zzz"] [] false itW st0 = st0 ∧
    processNICEItem ctxW ["zzz"] "u1" "T" st0 = st0 ∧
    processARTPItem ctxW ["t"] (st0, 0) ⟨"a1", "T", none⟩ = (st0, 0) :=
  ⟨claim_C4.1 ctxW "ncl" [] ["pathway"] false itW st0 (by decide),
   claim_C4.2.1 ctxW "ncl" ["zzz"] [] false itW st0 (by decide) (by decide),
   claim_C4.2.2.1 ctxW ["zzz"] "u1" "T" st0 (by decide) (by decide),
   claim_C4.2.2.2 ctxW ["t"] (st0, 0) ⟨"a1", "T", none⟩ (by decide)⟩

set_option maxRecDepth 8000 in
/-- Claim C3 is false as stated: in the RSS pipeline with `rssOnly`
configured (the NCL configuration), a feed item whose stored content is
the 5-character description `"short"` produces both a `StoredArticle` and
a `ChangeEvent` — the rssOnly branch of `fetchRSSSource` has no
content-length gate. -/
theorem claim_C3_counterexample :
    (processRSSItem ctxW "ncl" [] [] true itShort st0).guidance ≠ st0.guidance ∧
    (processRSSItem ctxW "ncl" [] [] true itShort st0).changes ≠ st0.changes ∧
    List.lookup "content:L1" (processRSSItem ctxW "ncl" [] [] true itShort st0).guidance =
      some
        { id := "content:L1", url := "L1", title := "Alert", source := "ncl",
          type := "article", publishedDate := "2026-01-01",
          fetchedDate := "2026-01-01T00:00:00Z", contentHash := "short", content := "short",
          parentUrl := none,
          metadata := { wordCount := 1, estimatedReadTime := 1, description := "short" } } ∧
    ("short" : String).length < 50 := by
  refine ⟨?_, ?_, ?_, ?_⟩ <;> decide

/-- Claim C3, amended: for every item processed through the crawl-and-store
engines (`crawlAndStore`, used by the NICE and non-rssOnly RSS pipelines,
and `crawlAndStoreARTP`), extracted content that is empty or shorter than
50 characters never produces a `StoredArticle` or `ChangeEvent`: the store
is returned unchanged.  The RSS-only path stores the feed description (or
title) with no length gate, which is what refutes the original claim. -/
theorem claim_C3 :
    (∀ (ctx : Ctx) (fuel : Nat) (u s t : String) (md : Hint) (p : Option String) (st : Store)
        (fx : FetchExtract), ctx.env u = some fx →
      (fx.content = "" ∨ fx.content.length < 50) →
      crawlAndStore ctx fuel u s t md p st = st) ∧
    (∀ (ctx : Ctx) (url title : String) (date : Option String) (st : Store)
        (fx : FetchExtract), ctx.env url = some fx →
      (fx.content = "" ∨ fx.content.length < 50) →
      crawlAndStoreARTP ctx url title date st = st) := by
  constructor
  · intro ctx fuel u s t md p st fx h hg
    rw [crawlAndStore, h]
    simp only [if_pos hg]
  · intro ctx url title date st fx h hg
    rw [crawlAndStoreARTP, h]
    simp only [if_pos hg]

theorem claim_C3_theorem_witness :
    crawlAndStore ctxShort 0 "u1" "nhs" "article" hint0 none st0 = st0 ∧
    crawlAndStoreARTP ctxShort "u1" "T" none st0 = st0 :=
  ⟨claim_C3.1 ctxShort 0 "u1" "nhs" "article" hint0 none st0 ⟨"short", [], "T", none⟩ rfl
      (by decide),
   claim_C3.2 ctxShort "u1" "T" none st0 ⟨"short", [], "T", none⟩ rfl (by decide)⟩


/-! ## Claim C8: seen markers -/


lemma lookup_insert_preserve {α : Type} {k k2 : String} {v e : α} {l : List (String × α)}
    (habs : List.lookup k2 l = none) (h : List.lookup k l = some e) :
    List.lookup k ((k2, v) :: l) = some e := by
  by_cases hk : (k == k2) = true
  · exfalso
    rw [eq_of_beq hk, habs] at h
    exact Option.noConfusion h
  · simp only [List.lookup]
    rw [Bool.not_eq_true] at hk
    rw [hk]
    exact h

lemma crawlARTP_seen (ctx : Ctx) (url title : String) (date : Option String) (st : Store) :
    (crawlAndStoreARTP ctx url title date st).seen = st.seen := by
  rw [crawlAndStoreARTP]
  cases henv : ctx.env url with
  | none => rfl
  | some fx =>
    by_cases hg : fx.content = "" ∨ fx.content.length < 50
    · simp only [if_pos hg]
    · simp only [if_neg hg]
      split <;> rfl

lemma rss_seen_preserve (ctx : Ctx) (source : String) (inc exc : List String) (ro : Bool)
    (it : RSSItem) (st : Store) (k : String) (e : SeenEntry)
    (h : List.lookup k st.seen = some e) :
    List.lookup k (processRSSItem ctx source inc exc ro it st).seen = some e := by
  rw [processRSSItem]
  by_cases h1 : it.title = "" ∨ it.link = ""
  · rw [if_pos h1]; exact h
  · rw [if_neg h1]
    cases h2 : exc.any (fun kw =>
        containsS (jsToLower (it.title ++ " " ++ it.description)) (jsToLower kw)) with
    | true => simp only [h2, if_true]; exact h
    | false =>
      simp only [h2, Bool.false_eq_true, if_false]
      cases h3 : !inc.isEmpty && !(inc.any (fun kw =>
          containsS (jsToLower (it.title ++ " " ++ it.description)) (jsToLower kw))) with
      | true => simp only [h3, if_true]; exact h
      | false =>
        simp only [h3, Bool.false_eq_true, if_false]
        cases h4 : (List.lookup (source ++ ":" ++ ctx.hashString it.link) st.seen).isSome with
        | true => simp only [h4, if_true]; exact h
        | false =>
          simp only [h4, Bool.false_eq_true, if_false]
          have habs : List.lookup (source ++ ":" ++ ctx.hashString it.link) st.seen = none :=
            Option.not_isSome_iff_eq_none.mp (by rw [h4]; exact Bool.false_ne_true)
          have hkeep := lookup_insert_preserve (v :=
            ({ url := it.link, title := it.title,
               description := some (it.description.take 500), discovered := ctx.now,
               publishedDate := it.pubDate, source := source } : SeenEntry)) habs h
          cases h5 : ro with
          | true =>
            simp only [h5, if_true]
            split
            · exact hkeep
            · exact hkeep
          | false =>
            simp only [h5, Bool.false_eq_true, if_false]
            rw [(crawlAndStore_rel ctx 0 it.link source "article" _ none _).1]
            exact hkeep

lemma nice_seen_preserve (ctx : Ctx) (kws : List String) (url title : String) (st : Store)
    (k : String) (e : SeenEntry) (h : List.lookup k st.seen = some e) :
    List.lookup k (processNICEItem ctx kws url title st).seen = some e := by
  rw [processNICEItem]
  by_cases h1 : title = ""
  · rw [if_pos h1]; exact h
  · rw [if_neg h1]
    cases h2 : !kws.isEmpty && !(kws.any (fun kw =>
        containsS (jsToLower title) (jsToLower kw))) with
    | true => simp only [h2, if_true]; exact h
    | false =>
      simp only [h2, Bool.false_eq_true, if_false]
      cases h3 : (List.lookup ("nice:" ++ ctx.hashString url) st.seen).isSome with
      | true => simp only [h3, if_true]; exact h
      | false =>
        simp only [h3, Bool.false_eq_true, if_false]
        rw [(crawlAndStore_rel ctx 1 url "nice" "guidance" _ none _).1]
        have habs : List.lookup ("nice:" ++ ctx.hashString url) st.seen = none :=
          Option.not_isSome_iff_eq_none.mp (by rw [h3]; exact Bool.false_ne_true)
        exact lookup_insert_preserve habs h

lemma artp_item_seen_preserve (ctx : Ctx) (exc : List String) (acc : Store × Nat)
    (a : ARTPLink) (k : String) (e : SeenEntry) (h : List.lookup k acc.1.seen = some e) :
    List.lookup k (processARTPItem ctx exc acc a).1.seen = some e := by
  rw [processARTPItem]
  cases h1 : (List.lookup ("artp:" ++ ctx.hashString a.url) acc.1.seen).isSome with
  | true => simp only [h1, if_true]; exact h
  | false =>
    simp only [h1, Bool.false_eq_true, if_false]
    cases h2 : exc.any (fun kw => containsS (jsToLower a.title) (jsToLower kw)) with
    | true => simp only [h2, if_true]; exact h
    | false =>
      simp only [h2, Bool.false_eq_true, if_false]
      rw [crawlARTP_seen]
      have habs : List.lookup ("artp:" ++ ctx.hashString a.url) acc.1.seen = none :=
        Option.not_isSome_iff_eq_none.mp (by rw [h1]; exact Bool.false_ne_true)
      exact lookup_insert_preserve habs h

lemma check_artp_seen_preserve (ctx : Ctx) (fetched : Option (List ARTPLink))
    (exc : List String) (st : Store) (k : String) (e : SeenEntry)
    (h : List.lookup k st.seen = some e) :
    List.lookup k (checkARTPNews ctx fetched exc st).seen = some e := by
  cases fetched with
  | none => exact h
  | some links =>
    rw [checkARTPNews]
    have hfold : ∀ (acc : Store × Nat), List.lookup k acc.1.seen = some e →
        List.lookup k ((links.foldl (processARTPItem ctx exc) acc)).1.seen = some e := by
      have := foldl_rel (processARTPItem ctx exc)
        (fun x y => List.lookup k x.1.seen = some e → List.lookup k y.1.seen = some e)
        (fun s hs => hs) (fun a b c hab hbc hk => hbc (hab hk))
        (fun s x hs => artp_item_seen_preserve ctx exc s x k e hs) links
      exact fun acc => this acc
    cases hpf : List.lookup "artp-news" st.pageHashes with
    | none =>
      rw [artpFullPath]
      exact hfold (st, 0) h
    | some pf =>
      dsimp only
      by_cases hsc : pf.hash ≠ "" ∧ ctx.hashString (artpFingerprint links) = pf.hash
      · rw [if_pos hsc]
        exact h
      · rw [if_neg hsc, artpFullPath]
        exact hfold (st, 0) h

lemma rss_skip (ctx : Ctx) (source : String) (inc exc : List String) (ro : Bool)
    (it : RSSItem) (st : Store) (e : SeenEntry)
    (h : List.lookup (source ++ ":" ++ ctx.hashString it.link) st.seen = some e) :
    processRSSItem ctx source inc exc ro it st = st := by
  rw [processRSSItem]
  by_cases h1 : it.title = "" ∨ it.link = ""
  · rw [if_pos h1]
  · rw [if_neg h1]
    cases h2 : exc.any (fun kw =>
        containsS (jsToLower (it.title ++ " " ++ it.description)) (jsToLower kw)) with
    | true => simp only [h2, if_true]
    | false =>
      simp only [h2, Bool.false_eq_true, if_false]
      cases h3 : !inc.isEmpty && !(inc.any (fun kw =>
          containsS (jsToLower (it.title ++ " " ++ it.description)) (jsToLower kw))) with
      | true => simp only [h3, if_true]
      | false =>
        simp only [h3, Bool.false_eq_true, if_false]
        have h4 : (List.lookup (source ++ ":" ++ ctx.hashString it.link) st.seen).isSome
            = true := by rw [h]; rfl
        simp only [h4, if_true]

lemma nice_skip (ctx : Ctx) (kws : List String) (url title : String) (st : Store)
    (e : SeenEntry) (h : List.lookup ("nice:" ++ ctx.hashString url) st.seen = some e) :
    processNICEItem ctx kws url title st = st := by
  rw [processNICEItem]
  by_cases h1 : title = ""
  · rw [if_pos h1]
  · rw [if_neg h1]
    cases h2 : !kws.isEmpty && !(kws.any (fun kw =>
        containsS (jsToLower title) (jsToLower kw))) with
    | true => simp only [h2, if_true]
    | false =>
      simp only [h2, Bool.false_eq_true, if_false]
      have h3 : (List.lookup ("nice:" ++ ctx.hashString url) st.seen).isSome = true := by
        rw [h]; rfl
      simp only [h3, if_true]

lemma artp_skip (ctx : Ctx) (exc : List String) (acc : Store × Nat) (a : ARTPLink)
    (e : SeenEntry) (h : List.lookup ("artp:" ++ ctx.hashString a.url) acc.1.seen = some e) :
    processARTPItem ctx exc acc a = acc := by
  rw [processARTPItem]
  have h1 : (List.lookup ("artp:" ++ ctx.hashString a.url) acc.1.seen).isSome = true := by
    rw [h]; rfl
  simp only [h1, if_true]



/-- Claim C8: SeenEntry write-once/immutability.  The crawl engines never
touch the seen map at all; every per-item processor and `checkARTPNews`
preserve every existing SeenEntry unchanged (a marker is only ever inserted
under a key that has no entry); and once a URL has a SeenEntry for a
source, the per-item processor of that source leaves the whole store
unchanged (the item is skipped). -/
theorem claim_C8 :
    (∀ (ctx : Ctx) (fuel : Nat) (u s t : String) (md : Hint) (p : Option String) (st : Store),
      (crawlAndStore ctx fuel u s t md p st).seen = st.seen) ∧
    (∀ (ctx : Ctx) (url title : String) (date : Option String) (st : Store),
      (crawlAndStoreARTP ctx url title date st).seen = st.seen) ∧
    (∀ (ctx : Ctx) (source : String) (inc exc : List String) (ro : Bool) (it : RSSItem)
        (st : Store) (k : String) (e : SeenEntry), List.lookup k st.seen = some e →
      List.lookup k (processRSSItem ctx source inc exc ro it st).seen = some e) ∧
    (∀ (ctx : Ctx) (kws : List String) (url title : String) (st : Store) (k : String)
        (e : SeenEntry), List.lookup k st.seen = some e →
      List.lookup k (processNICEItem ctx kws url title st).seen = some e) ∧
    (∀ (ctx : Ctx) (exc : List String) (acc : Store × Nat) (a : ARTPLink) (k : String)
        (e : SeenEntry), List.lookup k acc.1.seen = some e →
      List.lookup k (processARTPItem ctx exc acc a).1.seen = some e) ∧
    (∀ (ctx : Ctx) (fetched : Option (List ARTPLink)) (exc : List String) (st : Store)
        (k : String) (e : SeenEntry), List.lookup k st.seen = some e →
      List.lookup k (checkARTPNews ctx fetched exc st).seen = some e) ∧
    (∀ (ctx : Ctx) (source : String) (inc exc : List String) (ro : Bool) (it : RSSItem)
        (st : Store) (e : SeenEntry),
      List.lookup (source ++ ":" ++ ctx.hashString it.link) st.seen = some e →
      processRSSItem ctx source inc exc ro it st = st) ∧
    (∀ (ctx : Ctx) (kws : List String) (url title : String) (st : Store) (e : SeenEntry),
      List.lookup ("nice:" ++ ctx.hashString url) st.seen = some e →
      processNICEItem ctx kws url title st = st) ∧
    (∀ (ctx : Ctx) (exc : List String) (acc : Store × Nat) (a : ARTPLink) (e : SeenEntry),
      List.lookup ("artp:" ++ ctx.hashString a.url) acc.1.seen = some e →
      processARTPItem ctx exc acc a = acc) :=
  ⟨fun ctx fuel u s t md p st => (crawlAndStore_rel ctx fuel u s t md p st).1,
   crawlARTP_seen, rss_seen_preserve, nice_seen_preserve, artp_item_seen_preserve,
   check_artp_seen_preserve, rss_skip, nice_skip, artp_skip⟩

set_option maxRecDepth 4000 in
theorem claim_C8_witness :
    (crawlAndStore ctxW 0 "u1" "nhs" "article" hint0 none st0).seen = st0.seen ∧
    List.lookup "nhs:u1" (processRSSItem ctxW "nhs" [] [] true itW stSeen).seen = some seenW ∧
    processRSSItem ctxW "nhs" [] [] true itW stSeen = stSeen ∧
    processNICEItem ctxW [] "u1" "T" (⟨[("nice:u1", seenW)], [], [], [], 0⟩ : Store) =
      (⟨[("nice:u1", seenW)], [], [], [], 0⟩ : Store) ∧
    List.lookup "nhs:u1" (checkARTPNews ctxW (some []) [] stSeen).seen = some seenW :=
  ⟨claim_C8.1 ctxW 0 "u1" "nhs" "article" hint0 none st0,
   claim_C8.2.2.1 ctxW "nhs" [] [] true itW stSeen "nhs:u1" seenW (by decide),
   claim_C8.2.2.2.2.2.2.1 ctxW "nhs" [] [] true itW stSeen seenW (by decide),
   claim_C8.2.2.2.2.2.2.2.1 ctxW [] "u1" "T" ⟨[("nice:u1", seenW)], [], [], [], 0⟩ seenW
     (by decide),
   claim_C8.2.2.2.2.2.1 ctxW (some []) [] stSeen "nhs:u1" seenW (by decide)⟩


/-! ## Claim C9: stored-article shape invariants -/


lemma envGood_good {ctx : Ctx} {k : String} {a : StoredArticle} (h : EnvGood ctx k a) :
    GoodEntry ctx k a := by
  obtain ⟨u, fx, henv, hk, hurl, hcont, hch, hid, hert⟩ := h
  refine ⟨hid, ?_, ?_, hert⟩
  · rw [hurl, ← hk]
  · rw [hch, hcont]

lemma crawlARTP_rel (ctx : Ctx) (url title : String) (date : Option String) (st : Store) :
    CrawlRel ctx st (crawlAndStoreARTP ctx url title date st) := by
  rw [crawlAndStoreARTP]
  cases henv : ctx.env url with
  | none => exact crawlRel_refl ctx st
  | some fx =>
    by_cases hg : fx.content = "" ∨ fx.content.length < 50
    · simp only [if_pos hg]
      exact crawlRel_refl ctx st
    · simp only [if_neg hg]
      cases upsertDecision (List.lookup ("content:" ++ ctx.hashString url) st.guidance)
          (ctx.hashString fx.content) with
      | none => exact crawlRel_refl ctx st
      | some existing =>
        exact storeStep_rel ctx url "artp" "article" (jsOrS title fx.extractedTitle)
          ⟨none, none, date⟩ none fx existing st henv

lemma rss_writes (ctx : Ctx) (source : String) (inc exc : List String) (ro : Bool)
    (it : RSSItem) (st : Store) (k : String) (a : StoredArticle)
    (h : List.lookup k (processRSSItem ctx source inc exc ro it st).guidance = some a) :
    List.lookup k st.guidance = some a ∨ GoodEntry ctx k a := by
  rw [processRSSItem] at h
  by_cases h1 : it.title = "" ∨ it.link = ""
  · rw [if_pos h1] at h
    exact Or.inl h
  · rw [if_neg h1] at h
    cases h2 : exc.any (fun kw =>
        containsS (jsToLower (it.title ++ " " ++ it.description)) (jsToLower kw)) with
    | true =>
      simp only [h2, if_true] at h
      exact Or.inl h
    | false =>
      simp only [h2, Bool.false_eq_true, if_false] at h
      cases h3 : !inc.isEmpty && !(inc.any (fun kw =>
          containsS (jsToLower (it.title ++ " " ++ it.description)) (jsToLower kw))) with
      | true =>
        simp only [h3, if_true] at h
        exact Or.inl h
      | false =>
        simp only [h3, Bool.false_eq_true, if_false] at h
        cases h4 : (List.lookup (source ++ ":" ++ ctx.hashString it.link) st.seen).isSome with
        | true =>
          simp only [h4, if_true] at h
          exact Or.inl h
        | false =>
          simp only [h4, Bool.false_eq_true, if_false] at h
          cases h5 : ro with
          | false =>
            simp only [h5, Bool.false_eq_true, if_false] at h
            rcases (crawlAndStore_rel ctx 0 it.link source "article"
                ⟨some it.title, some (it.description.take 500), it.pubDate⟩ none _).2.2.1
                k a h with hold | hgood
            · exact Or.inl hold
            · exact Or.inr (envGood_good hgood)
          | true =>
            simp only [h5, if_true] at h
            revert h
            split
            · intro h
              exact Or.inl h
            · intro h
              simp only [List.lookup] at h
              by_cases hk : (k == "content:" ++ ctx.hashString it.link) = true
              · rw [hk] at h
                have hkey : k = "content:" ++ ctx.hashString it.link := eq_of_beq hk
                right
                rw [← Option.some_inj.mp h]
                refine ⟨?_, ?_, rfl, Nat.le_max_left 1 _⟩
                · rw [hkey]
                · rw [hkey]
              · rw [Bool.not_eq_true] at hk
                rw [hk] at h
                exact Or.inl h

/-- Claim C9: every StoredArticle written by either poller (the two crawl
engines and the RSS-only direct store) has `id` equal to its storage key,
the key is `"content:"` ++ the fingerprint of its `url` field, its
`contentHash` is the fingerprint of its stored `content`, and its
estimated reading time is at least 1.  Stated as: every guidance entry
after an operation is either an untouched pre-existing entry or satisfies
`GoodEntry`. -/
theorem claim_C9 :
    (∀ (ctx : Ctx) (fuel : Nat) (u s t : String) (md : Hint) (p : Option String) (st : Store)
        (k : String) (a : StoredArticle),
      List.lookup k (crawlAndStore ctx fuel u s t md p st).guidance = some a →
      List.lookup k st.guidance = some a ∨ GoodEntry ctx k a) ∧
    (∀ (ctx : Ctx) (url title : String) (date : Option String) (st : Store) (k : String)
        (a : StoredArticle),
      List.lookup k (crawlAndStoreARTP ctx url title date st).guidance = some a →
      List.lookup k st.guidance = some a ∨ GoodEntry ctx k a) ∧
    (∀ (ctx : Ctx) (source : String) (inc exc : List String) (ro : Bool) (it : RSSItem)
        (st : Store) (k : String) (a : StoredArticle),
      List.lookup k (processRSSItem ctx source inc exc ro it st).guidance = some a →
      List.lookup k st.guidance = some a ∨ GoodEntry ctx k a) := by
  refine ⟨?_, ?_, rss_writes⟩
  · intro ctx fuel u s t md p st k a h
    rcases (crawlAndStore_rel ctx fuel u s t md p st).2.2.1 k a h with hold | hgood
    · exact Or.inl hold
    · exact Or.inr (envGood_good hgood)
  · intro ctx url title date st k a h
    rcases (crawlARTP_rel ctx url title date st).2.2.1 k a h with hold | hgood
    · exact Or.inl hold
    · exact Or.inr (envGood_good hgood)

set_option maxRecDepth 4000 in
theorem claim_C9_witness :
    List.lookup "content:L1" st0.guidance = some artShort ∨
      GoodEntry ctxW "content:L1" artShort :=
  claim_C9.2.2 ctxW "ncl" [] [] true itShort st0 "content:L1" artShort (by decide)


/-! ## Claim C2: change classification -/


lemma crawl_store_changes (ctx : Ctx) (fuel : Nat) (u s t : String) (md : Hint)
    (p : Option String) (st : Store) (fx : FetchExtract) (existing : Option StoredArticle)
    (henv : ctx.env u = some fx) (hg : ¬ (fx.content = "" ∨ fx.content.length < 50))
    (hdec : upsertDecision (List.lookup ("content:" ++ ctx.hashString u) st.guidance)
      (ctx.hashString fx.content) = some existing) :
    ∃ pre, (crawlAndStore ctx fuel u s t md p st).changes =
      pre ++ mkEvent ctx u s (jsOrS (ofO md.title) fx.extractedTitle) existing fx ::
        st.changes ∧
      ((s = "nice" → fuel = 0 ∨ fx.chapterLinks = []) → pre = []) := by
  rw [crawlAndStore, henv]
  simp only [if_neg hg, hdec]
  by_cases hn : s = "nice"
  · simp only [if_pos hn]
    cases fuel with
    | zero =>
      exact ⟨[], rfl, fun _ => rfl⟩
    | succ f =>
      cases hch : fx.chapterLinks.isEmpty with
      | true =>
        simp only [hch, if_true]
        exact ⟨[], rfl, fun _ => rfl⟩
      | false =>
        simp only [hch, Bool.false_eq_true, if_false]
        obtain ⟨pre2, hpre2⟩ :=
          (foldl_rel _ (CrawlRel ctx) (crawlRel_refl ctx) (crawlRel_trans ctx)
            (fun st' ch => crawlAndStore_rel ctx f ch.url "nice" "chapter" _ (some u) st')
            fx.chapterLinks _).2.2.2.2
        refine ⟨pre2, by rw [hpre2]; rfl, ?_⟩
        intro hno
        rcases hno hn with h0 | hemp
        · exact absurd h0 (Nat.succ_ne_zero f)
        · rw [hemp] at hch
          exact absurd hch (by decide)
  · simp only [if_neg hn]
    exact ⟨[], rfl, fun _ => rfl⟩

/-- Claim C2: change classification for invocations passing the
content-length gate.  No stored entry under the derived key: exactly one
ChangeEvent marking a new item is appended (`previousHash` absent) — up to
the separately-keyed events of the NICE chapter recursion, which is the
only case in which `pre` can be non-empty.  Entry present with a differing
fingerprint: exactly one `content_update` event with `previousHash` the
prior fingerprint (hypothesis: the prior fingerprint is non-empty, which
every `hashString` output is) and `newHash` the new one.  Identical
fingerprints: the change log is untouched.  The second half states the
same for `crawlAndStoreARTP`, where the appended event is literally
unique. -/
theorem claim_C2 :
    (∀ (ctx : Ctx) (fuel : Nat) (u s t : String) (md : Hint) (p : Option String) (st : Store)
        (fx : FetchExtract), ctx.env u = some fx →
      ¬ (fx.content = "" ∨ fx.content.length < 50) →
      (List.lookup ("content:" ++ ctx.hashString u) st.guidance = none →
        ∃ pre ev, (crawlAndStore ctx fuel u s t md p st).changes =
            pre ++ (ctx.changeKey (ctx.hashString u), ev) :: st.changes ∧
          ev.changeType = "new_guidance" ∧ ev.previousHash = none ∧
          ev.newHash = ctx.hashString fx.content ∧
          ((s = "nice" → fuel = 0 ∨ fx.chapterLinks = []) → pre = [])) ∧
      (∀ ex, List.lookup ("content:" ++ ctx.hashString u) st.guidance = some ex →
        (ex.contentHash ≠ ctx.hashString fx.content → ex.contentHash ≠ "" →
          ∃ pre ev, (crawlAndStore ctx fuel u s t md p st).changes =
              pre ++ (ctx.changeKey (ctx.hashString u), ev) :: st.changes ∧
            ev.changeType = "content_update" ∧ ev.previousHash = some ex.contentHash ∧
            ev.newHash = ctx.hashString fx.content ∧
            ((s = "nice" → fuel = 0 ∨ fx.chapterLinks = []) → pre = [])) ∧
        (ex.contentHash = ctx.hashString fx.content →
          (crawlAndStore ctx fuel u s t md p st).changes = st.changes))) ∧
    (∀ (ctx : Ctx) (url title : String) (date : Option String) (st : Store)
        (fx : FetchExtract), ctx.env url = some fx →
      ¬ (fx.content = "" ∨ fx.content.length < 50) →
      (List.lookup ("content:" ++ ctx.hashString url) st.guidance = none →
        ∃ ev, (crawlAndStoreARTP ctx url title date st).changes =
            (ctx.changeKey (ctx.hashString url), ev) :: st.changes ∧
          ev.changeType = "new_guidance" ∧ ev.previousHash = none ∧
          ev.newHash = ctx.hashString fx.content) ∧
      (∀ ex, List.lookup ("content:" ++ ctx.hashString url) st.guidance = some ex →
        (ex.contentHash ≠ ctx.hashString fx.content → ex.contentHash ≠ "" →
          ∃ ev, (crawlAndStoreARTP ctx url title date st).changes =
              (ctx.changeKey (ctx.hashString url), ev) :: st.changes ∧
            ev.changeType = "content_update" ∧ ev.previousHash = some ex.contentHash ∧
            ev.newHash = ctx.hashString fx.content) ∧
        (ex.contentHash = ctx.hashString fx.content →
          (crawlAndStoreARTP ctx url title date st).changes = st.changes))) := by
  constructor
  · intro ctx fuel u s t md p st fx henv hg
    constructor
    · intro habs
      have hdec : upsertDecision (List.lookup ("content:" ++ ctx.hashString u) st.guidance)
          (ctx.hashString fx.content) = some none := by
        rw [habs]; rfl
      obtain ⟨pre, hpre, hno⟩ :=
        crawl_store_changes ctx fuel u s t md p st fx none henv hg hdec
      exact ⟨pre, _, hpre, rfl, rfl, rfl, hno⟩
    · intro ex hex
      constructor
      · intro hne hne2
        have hdec : upsertDecision (List.lookup ("content:" ++ ctx.hashString u) st.guidance)
            (ctx.hashString fx.content) = some (some ex) := by
          rw [hex]
          simp [upsertDecision, hne]
        obtain ⟨pre, hpre, hno⟩ :=
          crawl_store_changes ctx fuel u s t md p st fx (some ex) henv hg hdec
        refine ⟨pre, _, hpre, rfl, ?_, rfl, hno⟩
        simp [mkEvent, jsOrNull, hne2]
      · intro heq
        rw [crawlAndStore, henv]
        simp only [if_neg hg, hex]
        simp [upsertDecision, heq]
  · intro ctx url title date st fx henv hg
    constructor
    · intro habs
      rw [crawlAndStoreARTP, henv]
      simp only [if_neg hg, habs]
      exact ⟨_, rfl, rfl, rfl, rfl⟩
    · intro ex hex
      constructor
      · intro hne hne2
        rw [crawlAndStoreARTP, henv]
        simp only [if_neg hg, hex]
        simp only [upsertDecision, if_neg hne]
        refine ⟨_, rfl, rfl, ?_, rfl⟩
        simp [mkEvent, jsOrNull, hne2]
      · intro heq
        rw [crawlAndStoreARTP, henv]
        simp only [if_neg hg, hex]
        simp [upsertDecision, heq]



set_option maxRecDepth 8000 in
theorem claim_C2_witness :
    (∃ pre ev, (crawlAndStore ctxW 0 "u1" "nhs" "article" hint0 none st0).changes =
        pre ++ (ctxW.changeKey (ctxW.hashString "u1"), ev) :: st0.changes ∧
      ev.changeType = "new_guidance" ∧ ev.previousHash = none ∧
      ev.newHash = ctxW.hashString fxW.content ∧
      (("nhs" = "nice" → (0 : Nat) = 0 ∨ fxW.chapterLinks = []) → pre = [])) ∧
    (∃ pre ev, (crawlAndStore ctxW2 0 "u1" "nhs" "article" hint0 none stSeeded).changes =
        pre ++ (ctxW2.changeKey (ctxW2.hashString "u1"), ev) :: stSeeded.changes ∧
      ev.changeType = "content_update" ∧ ev.previousHash = some artSeeded.contentHash ∧
      ev.newHash = ctxW2.hashString fxW2.content ∧
      (("nhs" = "nice" → (0 : Nat) = 0 ∨ fxW2.chapterLinks = []) → pre = [])) ∧
    (crawlAndStore ctxW 0 "u1" "nhs" "article" hint0 none stSeeded).changes =
      stSeeded.changes ∧
    (∃ ev, (crawlAndStoreARTP ctxW "u2" "T" none st0).changes =
        (ctxW.changeKey (ctxW.hashString "u2"), ev) :: st0.changes ∧
      ev.changeType = "new_guidance" ∧ ev.previousHash = none ∧
      ev.newHash = ctxW.hashString fxW2.content) := by
  refine ⟨?_, ?_, ?_, ?_⟩
  · exact (claim_C2.1 ctxW 0 "u1" "nhs" "article" hint0 none st0 fxW rfl (by decide)).1 rfl
  · exact ((claim_C2.1 ctxW2 0 "u1" "nhs" "article" hint0 none stSeeded fxW2 rfl
      (by decide)).2 artSeeded (by decide)).1 (by decide) (by decide)
  · exact ((claim_C2.1 ctxW 0 "u1" "nhs" "article" hint0 none stSeeded fxW rfl
      (by decide)).2 artSeeded (by decide)).2 (by decide)
  · exact (claim_C2.2 ctxW "u2" "T" none st0 fxW2 (by decide) (by decide)).1 rfl


/-! ## Claim C1: no-op on unchanged content, idempotence -/


lemma str_append_left_cancel {s a b : String} (h : s ++ a = s ++ b) : a = b := by
  have hd := congrArg String.data h
  rw [String.data_append, String.data_append] at hd
  have h2 := List.append_cancel_left hd
  cases a
  cases b
  exact congrArg String.mk h2

lemma lookup_cons_self {α : Type} (k : String) (v : α) (l : List (String × α)) :
    List.lookup k ((k, v) :: l) = some v := by
  simp [List.lookup]

/-- After a storing invocation, the entry under the invocation's storage
key exists and (no fingerprint collisions assumed) carries the fingerprint
of the content the oracle serves for the URL. -/
lemma crawl_result_lookup (ctx : Ctx) (fuel : Nat) (u s t : String) (md : Hint)
    (p : Option String) (st : Store) (fx : FetchExtract) (existing : Option StoredArticle)
    (henv : ctx.env u = some fx) (hg : ¬ (fx.content = "" ∨ fx.content.length < 50))
    (hdec : upsertDecision (List.lookup ("content:" ++ ctx.hashString u) st.guidance)
      (ctx.hashString fx.content) = some existing) :
    ∃ a, List.lookup ("content:" ++ ctx.hashString u)
        (crawlAndStore ctx fuel u s t md p st).guidance = some a ∧
      (Function.Injective ctx.hashString → a.contentHash = ctx.hashString fx.content) := by
  rw [crawlAndStore, henv]
  simp only [if_neg hg, hdec]
  have hself := lookup_cons_self ("content:" ++ ctx.hashString u)
    (mkArticle ctx u s t (jsOrS (ofO md.title) fx.extractedTitle) md p fx) st.guidance
  have hbase : ∀ st2 : Store,
      CrawlRel ctx (storeStep ctx u s t (jsOrS (ofO md.title) fx.extractedTitle)
        md p fx existing st) st2 →
      ∃ a, List.lookup ("content:" ++ ctx.hashString u) st2.guidance = some a ∧
        (Function.Injective ctx.hashString → a.contentHash = ctx.hashString fx.content) := by
    intro st2 hrel
    have hne : List.lookup ("content:" ++ ctx.hashString u) st2.guidance ≠ none := by
      intro hn
      have := hrel.2.2.2.1 _ hn
      rw [show (storeStep ctx u s t (jsOrS (ofO md.title) fx.extractedTitle)
        md p fx existing st).guidance = _ :: st.guidance from rfl, hself] at this
      exact Option.noConfusion this
    obtain ⟨a, ha⟩ := Option.ne_none_iff_exists'.mp hne
    refine ⟨a, ha, ?_⟩
    intro hinj
    rcases hrel.2.2.1 _ _ ha with hold | hgood
    · rw [show (storeStep ctx u s t (jsOrS (ofO md.title) fx.extractedTitle)
        md p fx existing st).guidance = _ :: st.guidance from rfl, hself] at hold
      rw [← Option.some_inj.mp hold]
      rfl
    · obtain ⟨u2, fx2, henv2, hk2, _, _, hch2, _, _⟩ := hgood
      have hu : u2 = u := hinj (str_append_left_cancel hk2.symm)
      rw [hu, henv] at henv2
      rw [hch2, Option.some_inj.mp henv2]
  by_cases hn : s = "nice"
  · simp only [if_pos hn]
    cases fuel with
    | zero => exact hbase _ (crawlRel_refl ctx _)
    | succ f =>
      cases hch : fx.chapterLinks.isEmpty with
      | true =>
        simp only [hch, if_true]
        exact hbase _ (crawlRel_refl ctx _)
      | false =>
        simp only [hch, Bool.false_eq_true, if_false]
        exact hbase _ (foldl_rel _ (CrawlRel ctx) (crawlRel_refl ctx) (crawlRel_trans ctx)
          (fun st' ch => crawlAndStore_rel ctx f ch.url "nice" "chapter" _ (some u) st')
          fx.chapterLinks _)
  · simp only [if_neg hn]
    exact hbase _ (crawlRel_refl ctx _)

/-- Claim C1: idempotence of the crawl-and-store engines.  First: when the
extracted content's fingerprint equals that of the entry already stored
under the URL's storage key, the invocation leaves the whole store exactly
unchanged (no article write, no change event, no counter bump).  Second:
running an engine twice against byte-identical fetched content (the
deterministic oracle) yields the identical store the first run produced
and appends no second event; for `crawlAndStore` this assumes fingerprint
collision-freedom (`Function.Injective`), the assumption §4.1 of the spec
states, because a chapter URL colliding with its parent's could otherwise
overwrite the parent entry during the NICE recursion.  Both halves are
stated for `crawlAndStore` and `crawlAndStoreARTP`. -/
theorem claim_C1 :
    (∀ (ctx : Ctx) (fuel : Nat) (u s t : String) (md : Hint) (p : Option String) (st : Store)
        (fx : FetchExtract) (ex : StoredArticle), ctx.env u = some fx →
      List.lookup ("content:" ++ ctx.hashString u) st.guidance = some ex →
      ex.contentHash = ctx.hashString fx.content →
      crawlAndStore ctx fuel u s t md p st = st) ∧
    (∀ (ctx : Ctx), Function.Injective ctx.hashString →
      ∀ (fuel : Nat) (u s t : String) (md : Hint) (p : Option String) (st : Store),
      crawlAndStore ctx fuel u s t md p (crawlAndStore ctx fuel u s t md p st) =
        crawlAndStore ctx fuel u s t md p st) ∧
    (∀ (ctx : Ctx) (url title : String) (date : Option String) (st : Store)
        (fx : FetchExtract) (ex : StoredArticle), ctx.env url = some fx →
      List.lookup ("content:" ++ ctx.hashString url) st.guidance = some ex →
      ex.contentHash = ctx.hashString fx.content →
      crawlAndStoreARTP ctx url title date st = st) ∧
    (∀ (ctx : Ctx) (url title : String) (date : Option String) (st : Store),
      crawlAndStoreARTP ctx url title date
          (crawlAndStoreARTP ctx url title date st) =
        crawlAndStoreARTP ctx url title date st) := by
  have hnoop : ∀ (ctx : Ctx) (fuel : Nat) (u s t : String) (md : Hint) (p : Option String)
      (st : Store) (fx : FetchExtract) (ex : StoredArticle), ctx.env u = some fx →
      List.lookup ("content:" ++ ctx.hashString u) st.guidance = some ex →
      ex.contentHash = ctx.hashString fx.content →
      crawlAndStore ctx fuel u s t md p st = st := by
    intro ctx fuel u s t md p st fx ex henv hex heq
    rw [crawlAndStore, henv]
    by_cases hg : fx.content = "" ∨ fx.content.length < 50
    · simp only [if_pos hg]
    · simp only [if_neg hg, hex]
      simp [upsertDecision, heq]
  have hnoopA : ∀ (ctx : Ctx) (url title : String) (date : Option String) (st : Store)
      (fx : FetchExtract) (ex : StoredArticle), ctx.env url = some fx →
      List.lookup ("content:" ++ ctx.hashString url) st.guidance = some ex →
      ex.contentHash = ctx.hashString fx.content →
      crawlAndStoreARTP ctx url title date st = st := by
    intro ctx url title date st fx ex henv hex heq
    rw [crawlAndStoreARTP, henv]
    by_cases hg : fx.content = "" ∨ fx.content.length < 50
    · simp only [if_pos hg]
    · simp only [if_neg hg, hex]
      simp [upsertDecision, heq]
  refine ⟨hnoop, ?_, hnoopA, ?_⟩
  · intro ctx hinj fuel u s t md p st
    cases henv : ctx.env u with
    | none =>
      have h1 : crawlAndStore ctx fuel u s t md p st = st := by rw [crawlAndStore, henv]
      rw [h1, h1]
    | some fx =>
      by_cases hg : fx.content = "" ∨ fx.content.length < 50
      · have h1 : crawlAndStore ctx fuel u s t md p st = st := by
          rw [crawlAndStore, henv]
          simp only [if_pos hg]
        rw [h1, h1]
      · cases hdec : upsertDecision
            (List.lookup ("content:" ++ ctx.hashString u) st.guidance)
            (ctx.hashString fx.content) with
        | none =>
          have h1 : crawlAndStore ctx fuel u s t md p st = st := by
            rw [crawlAndStore, henv]
            simp only [if_neg hg, hdec]
          rw [h1, h1]
        | some existing =>
          obtain ⟨a, ha, hach⟩ :=
            crawl_result_lookup ctx fuel u s t md p st fx existing henv hg hdec
          exact hnoop ctx fuel u s t md p _ fx a henv ha (hach hinj)
  · intro ctx url title date st
    cases henv : ctx.env url with
    | none =>
      have h1 : crawlAndStoreARTP ctx url title date st = st := by rw [crawlAndStoreARTP, henv]
      rw [h1, h1]
    | some fx =>
      by_cases hg : fx.content = "" ∨ fx.content.length < 50
      · have h1 : crawlAndStoreARTP ctx url title date st = st := by
          rw [crawlAndStoreARTP, henv]
          simp only [if_pos hg]
        rw [h1, h1]
      · cases hdec : upsertDecision
            (List.lookup ("content:" ++ ctx.hashString url) st.guidance)
            (ctx.hashString fx.content) with
        | none =>
          have h1 : crawlAndStoreARTP ctx url title date st = st := by
            rw [crawlAndStoreARTP, henv]
            simp only [if_neg hg, hdec]
          rw [h1, h1]
        | some existing =>
          have h1 : crawlAndStoreARTP ctx url title date st =
              storeStep ctx url "artp" "article" (jsOrS title fx.extractedTitle)
                ⟨none, none, date⟩ none fx existing st := by
            rw [crawlAndStoreARTP, henv]
            simp only [if_neg hg, hdec]
          rw [h1]
          exact hnoopA ctx url title date _ fx _ henv
            (lookup_cons_self ("content:" ++ ctx.hashString url) _ st.guidance) rfl



set_option maxRecDepth 8000 in
theorem claim_C1_witness :
    crawlAndStore ctxW 0 "u1" "nhs" "article" hint0 none stSeeded = stSeeded ∧
    crawlAndStore ctxW 1 "u1" "nice" "guidance" hint0 none
        (crawlAndStore ctxW 1 "u1" "nice" "guidance" hint0 none st0) =
      crawlAndStore ctxW 1 "u1" "nice" "guidance" hint0 none st0 ∧
    crawlAndStoreARTP ctxW "u2" "T" none
        (crawlAndStoreARTP ctxW "u2" "T" none st0) =
      crawlAndStoreARTP ctxW "u2" "T" none st0 :=
  ⟨claim_C1.1 ctxW 0 "u1" "nhs" "article" hint0 none stSeeded fxW artSeeded rfl (by decide)
     (by decide),
   claim_C1.2.1 ctxW (fun a b h => h) 1 "u1" "nice" "guidance" hint0 none st0,
   claim_C1.2.2.2 ctxW "u2" "T" none st0⟩


/-! ## Claim C10: search gate and result cap -/


lemma insertHit_length (dn : String → Int) (x : SearchHit) (l : List SearchHit) :
    (insertHit dn x l).length = l.length + 1 := by
  induction l with
  | nil => rfl
  | cons y ys ih =>
    rw [insertHit]
    by_cases h : hitLe dn x y
    · simp [h]
    · simp [h, ih]

lemma sortHits_length (dn : String → Int) (l : List SearchHit) :
    (sortHits dn l).length = l.length := by
  induction l with
  | nil => rfl
  | cons x xs ih =>
    rw [sortHits, insertHit_length, ih, List.length_cons]

/-- Claim C10: the data client's search.  A query whose lowercased trimmed
form is empty or shorter than 2 characters yields `{items := [], total :=
0, query := ""}` for every loaded guidance list (so the stored guidance is
not consulted: the result is constant in it); and for every query the
returned item list holds at most 50 entries even when `total` reports
more. -/
theorem claim_C10 :
    (∀ (dn : String → Int) (query source : String) (gs : List StoredArticle),
      (jsTrimS (jsToLower query) = "" ∨ (jsTrimS (jsToLower query)).length < 2) →
      searchApi dn query source gs = ⟨[], 0, ""⟩) ∧
    (∀ (dn : String → Int) (query source : String) (gs : List StoredArticle),
      (searchApi dn query source gs).items.length ≤ 50) := by
  constructor
  · intro dn query source gs h
    rw [searchApi]
    simp only [if_pos h]
  · intro dn query source gs
    rw [searchApi]
    by_cases h : jsTrimS (jsToLower query) = "" ∨ (jsTrimS (jsToLower query)).length < 2
    · simp only [if_pos h]
      exact Nat.zero_le 50
    · simp only [if_neg h]
      rw [List.length_take]
      exact min_le_left 50 _

theorem claim_C10_witness :
    searchApi (fun _ => 0) " a " "all" [artShort] = ⟨[], 0, ""⟩ ∧
    (searchApi (fun _ => 0) "alert" "all" [artShort]).items.length ≤ 50 :=
  ⟨claim_C10.1 (fun _ => 0) " a " "all" [artShort] (by decide),
   claim_C10.2 (fun _ => 0) "alert" "all" [artShort]⟩


/-! ## Claim C7: cleanHTML block removal -/


lemma scanRep_nil (m : Chars → Option (Chars × Chars)) (f : Nat) : scanRep m f [] = [] := by
  cases f <;> rfl

lemma scanRep_skip (m : Chars → Option (Chars × Chars)) (xs : Chars)
    (hxs : ∀ c ∈ xs, ∀ r, m (c :: r) = none) :
    ∀ (f : Nat) (ys : Chars), xs.length ≤ f →
      scanRep m f (xs ++ ys) = xs ++ scanRep m (f - xs.length) ys := by
  induction xs with
  | nil =>
    intro f ys _
    simp
  | cons c cs ih =>
    intro f ys hf
    cases f with
    | zero => exact absurd hf (by simp)
    | succ f2 =>
      rw [List.cons_append, scanRep]
      rw [hxs c (List.mem_cons_self c cs) (cs ++ ys)]
      rw [ih (fun d hd r => hxs d (List.mem_cons_of_mem c hd) r) f2 ys
        (Nat.le_of_succ_le_succ hf)]
      simp [Nat.succ_sub_succ]

lemma mBlock_none_of_strip {t2 : Chars} {s : Chars} (h : stripCI ('<' :: t2) s = none) :
    mBlock t2 s = none := by
  rw [mBlock, h]

lemma mBlock_head_ne {c : Char} (hc : c ≠ '<') (tag : Chars) (r : Chars) :
    mBlock tag (c :: r) = none :=
  mBlock_none_of_strip (stripCI_lt_head hc tag r)

lemma blockPass_no_lt (tag : Chars) (s : Chars) (hs : ∀ c ∈ s, c ≠ '<') :
    blockPass tag s = s := by
  rw [blockPass, runRep]
  have h := scanRep_skip (mBlock tag) s
    (fun c hc r => mBlock_head_ne (hs c hc) tag r) s.length [] (Nat.le_refl _)
  simpa [scanRep_nil] using h

lemma splitAfterCI_lt_skip (ps : Chars) (xs : Chars) (hxs : ∀ c ∈ xs, c ≠ '<')
    (ys : Chars) : splitAfterCI ('<' :: ps) (xs ++ ys) = splitAfterCI ('<' :: ps) ys := by
  induction xs with
  | nil => simp
  | cons c cs ih =>
    rw [List.cons_append, splitAfterCI]
    rw [stripCI_lt_head (hxs c (List.mem_cons_self c cs)) ps (cs ++ ys)]
    exact ih (fun d hd => hxs d (List.mem_cons_of_mem c hd))

lemma mBlock_removes (tag code post : Chars) (hcode : ∀ c ∈ code, c ≠ '<') :
    mBlock tag
        ('<' :: (tag ++ ('>' :: (code ++ ('<' :: ('/' :: (tag ++ ('>' :: post)))))))) =
      some ([], post) := by
  rw [mBlock]
  have h1 : stripCI ('<' :: tag)
      ('<' :: (tag ++ ('>' :: (code ++ ('<' :: ('/' :: (tag ++ ('>' :: post)))))))) =
      some ('>' :: (code ++ ('<' :: ('/' :: (tag ++ ('>' :: post)))))) := by
    have hs := stripCI_self ('<' :: tag)
      ('>' :: (code ++ ('<' :: ('/' :: (tag ++ ('>' :: post))))))
    rwa [List.cons_append] at hs
  rw [h1]
  dsimp only
  rw [show boundaryOk ('>' :: (code ++ ('<' :: ('/' :: (tag ++ ('>' :: post)))))) = true
    from rfl]
  simp only [if_true]
  have h2 : splitAfterCI ('<' :: '/' :: (tag ++ ['>']))
      ('>' :: (code ++ ('<' :: ('/' :: (tag ++ ('>' :: post)))))) = some post := by
    rw [splitAfterCI]
    rw [stripCI_lt_head (by decide) ('/' :: (tag ++ ['>']))
      (code ++ ('<' :: ('/' :: (tag ++ ('>' :: post)))))]
    rw [splitAfterCI_lt_skip ('/' :: (tag ++ ['>'])) code hcode
      ('<' :: ('/' :: (tag ++ ('>' :: post))))]
    rw [splitAfterCI]
    have hs : stripCI ('<' :: '/' :: (tag ++ ['>']))
        ('<' :: ('/' :: (tag ++ ('>' :: post)))) = some post := by
      have := stripCI_self ('<' :: '/' :: (tag ++ ['>'])) post
      rw [show ('<' :: '/' :: (tag ++ ['>'])) ++ post =
        '<' :: ('/' :: (tag ++ ('>' :: post))) by simp] at this
      exact this
    rw [hs]
  rw [h2]

lemma blockPass_removes (tag pre code post : Chars) (hpre : ∀ c ∈ pre, c ≠ '<')
    (hcode : ∀ c ∈ code, c ≠ '<') (hpost : ∀ c ∈ post, c ≠ '<') :
    blockPass tag
        (pre ++ ('<' :: (tag ++ ('>' :: (code ++ ('<' :: ('/' :: (tag ++ ('>' :: post))))))))) =
      pre ++ post := by
  rw [blockPass, runRep]
  rw [scanRep_skip (mBlock tag) pre (fun c hc r => mBlock_head_ne (hpre c hc) tag r)
    _ _ (by simp)]
  congr 1
  rw [show (pre ++ ('<' :: (tag ++ ('>' :: (code ++
      ('<' :: ('/' :: (tag ++ ('>' :: post))))))))).length - pre.length =
      (tag ++ ('>' :: (code ++ ('<' :: ('/' :: (tag ++ ('>' :: post))))))).length + 1 by
    simp]
  rw [scanRep]
  rw [mBlock_removes tag code post hcode]
  dsimp only
  rw [List.nil_append]
  have hskip2 := scanRep_skip (mBlock tag) post
    (fun c hc r => mBlock_head_ne (hpost c hc) tag r)
    (tag ++ ('>' :: (code ++ ('<' :: ('/' :: (tag ++ ('>' :: post))))))).length []
    (by simp; omega)
  rw [List.append_nil] at hskip2
  rw [hskip2, scanRep_nil, List.append_nil]

lemma blockPass_skip (t2 tag pre code post : Chars) (hpre : ∀ c ∈ pre, c ≠ '<')
    (hcode : ∀ c ∈ code, c ≠ '<') (hpost : ∀ c ∈ post, c ≠ '<')
    (htag : ∀ c ∈ tag, c ≠ '<')
    (hopen : ∀ z, mBlock t2 ('<' :: (tag ++ ('>' :: z))) = none)
    (hclose : ∀ z, mBlock t2 ('<' :: ('/' :: (tag ++ ('>' :: z)))) = none) :
    blockPass t2
        (pre ++ ('<' :: (tag ++ ('>' :: (code ++ ('<' :: ('/' :: (tag ++ ('>' :: post))))))))) =
      pre ++ ('<' :: (tag ++ ('>' :: (code ++ ('<' :: ('/' :: (tag ++ ('>' :: post)))))))) := by
  rw [blockPass, runRep]
  rw [scanRep_skip (mBlock t2) pre (fun c hc r => mBlock_head_ne (hpre c hc) t2 r)
    _ _ (by simp)]
  congr 1
  rw [show (pre ++ ('<' :: (tag ++ ('>' :: (code ++
      ('<' :: ('/' :: (tag ++ ('>' :: post))))))))).length - pre.length =
      (tag ++ ('>' :: (code ++ ('<' :: ('/' :: (tag ++ ('>' :: post))))))).length + 1 by
    simp]
  rw [scanRep]
  rw [hopen (code ++ ('<' :: ('/' :: (tag ++ ('>' :: post)))))]
  rw [show tag ++ ('>' :: (code ++ ('<' :: ('/' :: (tag ++ ('>' :: post)))))) =
      (tag ++ ('>' :: code)) ++ ('<' :: ('/' :: (tag ++ ('>' :: post)))) by simp]
  have hxs : ∀ c ∈ tag ++ ('>' :: code), c ≠ '<' := by
    intro c hc
    rcases List.mem_append.mp hc with hc1 | hc2
    · exact htag c hc1
    · rcases List.mem_cons.mp hc2 with hc3 | hc4
      · rw [hc3]; decide
      · exact hcode c hc4
  rw [scanRep_skip (mBlock t2) (tag ++ ('>' :: code))
    (fun c hc r => mBlock_head_ne (hxs c hc) t2 r) _ _ (by simp)]
  rw [show ((tag ++ ('>' :: code)) ++ ('<' :: ('/' :: (tag ++ ('>' :: post))))).length -
      (tag ++ ('>' :: code)).length = ('/' :: (tag ++ ('>' :: post))).length + 1 by
    simp
    omega]
  rw [scanRep]
  rw [hclose post]
  have hxs2 : ∀ c ∈ '/' :: (tag ++ ('>' :: post)), c ≠ '<' := by
    intro c hc
    rcases List.mem_cons.mp hc with hc1 | hc2
    · rw [hc1]; decide
    · rcases List.mem_append.mp hc2 with hc3 | hc4
      · exact htag c hc3
      · rcases List.mem_cons.mp hc4 with hc5 | hc6
        · rw [hc5]; decide
        · exact hpost c hc6
  have hskip2 := scanRep_skip (mBlock t2) ('/' :: (tag ++ ('>' :: post)))
    (fun c hc r => mBlock_head_ne (hxs2 c hc) t2 r)
    ('/' :: (tag ++ ('>' :: post))).length [] (Nat.le_refl _)
  rw [List.append_nil] at hskip2
  rw [hskip2, scanRep_nil, List.append_nil]

/-- Claim C7, amended: the removal guarantee holds for a banned-tag block
whose surrounding document and body carry no other markup (no `<`
character outside the block's own tags): removing the block from the input
does not change the output of `cleanHTML` at all, so none of its text can
leak.  In general the claim is false (see the counterexample): the seven
removal passes run in a fixed order, so an earlier-removed tag's block
opening inside a later-processed block and closing outside it swallows the
later block's closing tag and lets its text through. -/
theorem claim_C7 (tag : Chars) (htag : tag ∈ bannedTags) (pre code post : Chars)
    (hpre : ∀ c ∈ pre, c ≠ '<') (hcode : ∀ c ∈ code, c ≠ '<')
    (hpost : ∀ c ∈ post, c ≠ '<') :
    cleanHTML
        (pre ++ ('<' :: (tag ++ ('>' :: (code ++ ('<' :: ('/' :: (tag ++ ('>' :: post))))))))) =
      cleanHTML (pre ++ post) := by
  have hpp : ∀ c ∈ pre ++ post, c ≠ '<' :=
    fun c hc => (List.mem_append.mp hc).elim (hpre c) (hpost c)
  have e1 := blockPass_no_lt scriptTag (pre ++ post) hpp
  have e2 := blockPass_no_lt styleTag (pre ++ post) hpp
  have e3 := blockPass_no_lt navTag (pre ++ post) hpp
  have e4 := blockPass_no_lt headerTag (pre ++ post) hpp
  have e5 := blockPass_no_lt footerTag (pre ++ post) hpp
  have e6 := blockPass_no_lt asideTag (pre ++ post) hpp
  have e7 := blockPass_no_lt noscriptTag (pre ++ post) hpp
  simp only [bannedTags, List.mem_cons, List.not_mem_nil, or_false] at htag
  rcases htag with rfl | rfl | rfl | rfl | rfl | rfl | rfl
  · -- tag = scriptTag
    have r := blockPass_removes scriptTag pre code post hpre hcode hpost
    simp only [cleanHTML]
    rw [r, e1, e2, e3, e4, e5, e6, e7]
  · -- tag = styleTag
    have s1 := blockPass_skip scriptTag styleTag pre code post hpre hcode hpost
      (by decide)
      (fun z => mBlock_none_of_strip
        (stripCI_none_of_mismatch (p := '<' :: scriptTag) (x := '<' :: styleTag ++ ['>']) (by decide) z))
      (fun z => mBlock_none_of_strip
        (stripCI_none_of_mismatch (p := '<' :: scriptTag) (x := '<' :: '/' :: styleTag ++ ['>'])
          (by decide) z))
    have r := blockPass_removes styleTag pre code post hpre hcode hpost
    simp only [cleanHTML]
    rw [s1, r, e1, e2, e3, e4, e5, e6, e7]
  · -- tag = navTag
    have s1 := blockPass_skip scriptTag navTag pre code post hpre hcode hpost
      (by decide)
      (fun z => mBlock_none_of_strip
        (stripCI_none_of_mismatch (p := '<' :: scriptTag) (x := '<' :: navTag ++ ['>']) (by decide) z))
      (fun z => mBlock_none_of_strip
        (stripCI_none_of_mismatch (p := '<' :: scriptTag) (x := '<' :: '/' :: navTag ++ ['>'])
          (by decide) z))
    have s2 := blockPass_skip styleTag navTag pre code post hpre hcode hpost
      (by decide)
      (fun z => mBlock_none_of_strip
        (stripCI_none_of_mismatch (p := '<' :: styleTag) (x := '<' :: navTag ++ ['>']) (by decide) z))
      (fun z => mBlock_none_of_strip
        (stripCI_none_of_mismatch (p := '<' :: styleTag) (x := '<' :: '/' :: navTag ++ ['>'])
          (by decide) z))
    have r := blockPass_removes navTag pre code post hpre hcode hpost
    simp only [cleanHTML]
    rw [s1, s2, r, e1, e2, e3, e4, e5, e6, e7]
  · -- tag = headerTag
    have s1 := blockPass_skip scriptTag headerTag pre code post hpre hcode hpost
      (by decide)
      (fun z => mBlock_none_of_strip
        (stripCI_none_of_mismatch (p := '<' :: scriptTag) (x := '<' :: headerTag ++ ['>']) (by decide) z))
      (fun z => mBlock_none_of_strip
        (stripCI_none_of_mismatch (p := '<' :: scriptTag) (x := '<' :: '/' :: headerTag ++ ['>'])
          (by decide) z))
    have s2 := blockPass_skip styleTag headerTag pre code post hpre hcode hpost
      (by decide)
      (fun z => mBlock_none_of_strip
        (stripCI_none_of_mismatch (p := '<' :: styleTag) (x := '<' :: headerTag ++ ['>']) (by decide) z))
      (fun z => mBlock_none_of_strip
        (stripCI_none_of_mismatch (p := '<' :: styleTag) (x := '<' :: '/' :: headerTag ++ ['>'])
          (by decide) z))
    have s3 := blockPass_skip navTag headerTag pre code post hpre hcode hpost
      (by decide)
      (fun z => mBlock_none_of_strip
        (stripCI_none_of_mismatch (p := '<' :: navTag) (x := '<' :: headerTag ++ ['>']) (by decide) z))
      (fun z => mBlock_none_of_strip
        (stripCI_none_of_mismatch (p := '<' :: navTag) (x := '<' :: '/' :: headerTag ++ ['>'])
          (by decide) z))
    have r := blockPass_removes headerTag pre code post hpre hcode hpost
    simp only [cleanHTML]
    rw [s1, s2, s3, r, e1, e2, e3, e4, e5, e6, e7]
  · -- tag = footerTag
    have s1 := blockPass_skip scriptTag footerTag pre code post hpre hcode hpost
      (by decide)
      (fun z => mBlock_none_of_strip
        (stripCI_none_of_mismatch (p := '<' :: scriptTag) (x := '<' :: footerTag ++ ['>']) (by decide) z))
      (fun z => mBlock_none_of_strip
        (stripCI_none_of_mismatch (p := '<' :: scriptTag) (x := '<' :: '/' :: footerTag ++ ['>'])
          (by decide) z))
    have s2 := blockPass_skip styleTag footerTag pre code post hpre hcode hpost
      (by decide)
      (fun z => mBlock_none_of_strip
        (stripCI_none_of_mismatch (p := '<' :: styleTag) (x := '<' :: footerTag ++ ['>']) (by decide) z))
      (fun z => mBlock_none_of_strip
        (stripCI_none_of_mismatch (p := '<' :: styleTag) (x := '<' :: '/' :: footerTag ++ ['>'])
          (by decide) z))
    have s3 := blockPass_skip navTag footerTag pre code post hpre hcode hpost
      (by decide)
      (fun z => mBlock_none_of_strip
        (stripCI_none_of_mismatch (p := '<' :: navTag) (x := '<' :: footerTag ++ ['>']) (by decide) z))
      (fun z => mBlock_none_of_strip
        (stripCI_none_of_mismatch (p := '<' :: navTag) (x := '<' :: '/' :: footerTag ++ ['>'])
          (by decide) z))
    have s4 := blockPass_skip headerTag footerTag pre code post hpre hcode hpost
      (by decide)
      (fun z => mBlock_none_of_strip
        (stripCI_none_of_mismatch (p := '<' :: headerTag) (x := '<' :: footerTag ++ ['>']) (by decide) z))
      (fun z => mBlock_none_of_strip
        (stripCI_none_of_mismatch (p := '<' :: headerTag) (x := '<' :: '/' :: footerTag ++ ['>'])
          (by decide) z))
    have r := blockPass_removes footerTag pre code post hpre hcode hpost
    simp only [cleanHTML]
    rw [s1, s2, s3, s4, r, e1, e2, e3, e4, e5, e6, e7]
  · -- tag = asideTag
    have s1 := blockPass_skip scriptTag asideTag pre code post hpre hcode hpost
      (by decide)
      (fun z => mBlock_none_of_strip
        (stripCI_none_of_mismatch (p := '<' :: scriptTag) (x := '<' :: asideTag ++ ['>']) (by decide) z))
      (fun z => mBlock_none_of_strip
        (stripCI_none_of_mismatch (p := '<' :: scriptTag) (x := '<' :: '/' :: asideTag ++ ['>'])
          (by decide) z))
    have s2 := blockPass_skip styleTag asideTag pre code post hpre hcode hpost
      (by decide)
      (fun z => mBlock_none_of_strip
        (stripCI_none_of_mismatch (p := '<' :: styleTag) (x := '<' :: asideTag ++ ['>']) (by decide) z))
      (fun z => mBlock_none_of_strip
        (stripCI_none_of_mismatch (p := '<' :: styleTag) (x := '<' :: '/' :: asideTag ++ ['>'])
          (by decide) z))
    have s3 := blockPass_skip navTag asideTag pre code post hpre hcode hpost
      (by decide)
      (fun z => mBlock_none_of_strip
        (stripCI_none_of_mismatch (p := '<' :: navTag) (x := '<' :: asideTag ++ ['>']) (by decide) z))
      (fun z => mBlock_none_of_strip
        (stripCI_none_of_mismatch (p := '<' :: navTag) (x := '<' :: '/' :: asideTag ++ ['>'])
          (by decide) z))
    have s4 := blockPass_skip headerTag asideTag pre code post hpre hcode hpost
      (by decide)
      (fun z => mBlock_none_of_strip
        (stripCI_none_of_mismatch (p := '<' :: headerTag) (x := '<' :: asideTag ++ ['>']) (by decide) z))
      (fun z => mBlock_none_of_strip
        (stripCI_none_of_mismatch (p := '<' :: headerTag) (x := '<' :: '/' :: asideTag ++ ['>'])
          (by decide) z))
    have s5 := blockPass_skip footerTag asideTag pre code post hpre hcode hpost
      (by decide)
      (fun z => mBlock_none_of_strip
        (stripCI_none_of_mismatch (p := '<' :: footerTag) (x := '<' :: asideTag ++ ['>']) (by decide) z))
      (fun z => mBlock_none_of_strip
        (stripCI_none_of_mismatch (p := '<' :: footerTag) (x := '<' :: '/' :: asideTag ++ ['>'])
          (by decide) z))
    have r := blockPass_removes asideTag pre code post hpre hcode hpost
    simp only [cleanHTML]
    rw [s1, s2, s3, s4, s5, r, e1, e2, e3, e4, e5, e6, e7]
  · -- tag = noscriptTag
    have s1 := blockPass_skip scriptTag noscriptTag pre code post hpre hcode hpost
      (by decide)
      (fun z => mBlock_none_of_strip
        (stripCI_none_of_mismatch (p := '<' :: scriptTag) (x := '<' :: noscriptTag ++ ['>']) (by decide) z))
      (fun z => mBlock_none_of_strip
        (stripCI_none_of_mismatch (p := '<' :: scriptTag) (x := '<' :: '/' :: noscriptTag ++ ['>'])
          (by decide) z))
    have s2 := blockPass_skip styleTag noscriptTag pre code post hpre hcode hpost
      (by decide)
      (fun z => mBlock_none_of_strip
        (stripCI_none_of_mismatch (p := '<' :: styleTag) (x := '<' :: noscriptTag ++ ['>']) (by decide) z))
      (fun z => mBlock_none_of_strip
        (stripCI_none_of_mismatch (p := '<' :: styleTag) (x := '<' :: '/' :: noscriptTag ++ ['>'])
          (by decide) z))
    have s3 := blockPass_skip navTag noscriptTag pre code post hpre hcode hpost
      (by decide)
      (fun z => mBlock_none_of_strip
        (stripCI_none_of_mismatch (p := '<' :: navTag) (x := '<' :: noscriptTag ++ ['>']) (by decide) z))
      (fun z => mBlock_none_of_strip
        (stripCI_none_of_mismatch (p := '<' :: navTag) (x := '<' :: '/' :: noscriptTag ++ ['>'])
          (by decide) z))
    have s4 := blockPass_skip headerTag noscriptTag pre code post hpre hcode hpost
      (by decide)
      (fun z => mBlock_none_of_strip
        (stripCI_none_of_mismatch (p := '<' :: headerTag) (x := '<' :: noscriptTag ++ ['>']) (by decide) z))
      (fun z => mBlock_none_of_strip
        (stripCI_none_of_mismatch (p := '<' :: headerTag) (x := '<' :: '/' :: noscriptTag ++ ['>'])
          (by decide) z))
    have s5 := blockPass_skip footerTag noscriptTag pre code post hpre hcode hpost
      (by decide)
      (fun z => mBlock_none_of_strip
        (stripCI_none_of_mismatch (p := '<' :: footerTag) (x := '<' :: noscriptTag ++ ['>']) (by decide) z))
      (fun z => mBlock_none_of_strip
        (stripCI_none_of_mismatch (p := '<' :: footerTag) (x := '<' :: '/' :: noscriptTag ++ ['>'])
          (by decide) z))
    have s6 := blockPass_skip asideTag noscriptTag pre code post hpre hcode hpost
      (by decide)
      (fun z => mBlock_none_of_strip
        (stripCI_none_of_mismatch (p := '<' :: asideTag) (x := '<' :: noscriptTag ++ ['>']) (by decide) z))
      (fun z => mBlock_none_of_strip
        (stripCI_none_of_mismatch (p := '<' :: asideTag) (x := '<' :: '/' :: noscriptTag ++ ['>'])
          (by decide) z))
    have r := blockPass_removes noscriptTag pre code post hpre hcode hpost
    simp only [cleanHTML]
    rw [s1, s2, s3, s4, s5, s6, r, e1, e2, e3, e4, e5, e6, e7]



set_option maxRecDepth 8000 in
/-- Claim C7 is false as stated: for the input
`<style>SECRET<script></style></script>REST`, the letters-only text
`SECRET` occurs in the input only inside the style block (and the claim's
rendering `cleanHTMLNeverLeaks` demands it then never reach the output),
yet `cleanHTML` returns `SECRETREST`: the script pass runs first and
swallows `</style>`, so the style block is never removed. -/
theorem claim_C7_counterexample : ¬ cleanHTMLNeverLeaks := fun h =>
  absurd
    (h "<style>SECRET<script></style></script>REST".toList "SECRET".toList (by decide)
      (by decide) (by decide) (by decide))
    (by decide)

set_option maxRecDepth 8000 in
theorem claim_C7_theorem_witness :
    cleanHTML
        ("abc".toList ++ ('<' :: (styleTag ++ ('>' :: ("hidden".toList ++
          ('<' :: ('/' :: (styleTag ++ ('>' :: "xyz".toList))))))))) =
      cleanHTML ("abc".toList ++ "xyz".toList) :=
  claim_C7 styleTag (by decide) "abc".toList "hidden".toList "xyz".toList (by decide)
    (by decide) (by decide)


end CGM
